import Mathlib

/-!
Verification development for the CCIP transfer frontend.

The TypeScript sources (`src/lib/ccip-client.ts`, `src/lib/ccip-utils.ts`,
the configuration module and the transfer-form handler) are shallowly
embedded below.  JavaScript numbers are modelled by exact rationals (ℚ):
the embedded semantics of `parseFloat`, `toFixed`, `Math.floor` and
`Number.toString` is the exact-arithmetic idealization of the code, with
finite values only.  Stateful code (`executeRealCCIPTransfer`,
`handleTransfer`) is embedded as pure functions over an explicit `World`
of external collaborators (ledger, signer, network), returning the result
together with the ordered trace of external calls made.
-/

/-! ### Decimal digits, printing and parsing (Number.toString / parseFloat model) -/

/-- Character for a single decimal digit (digits ≥ 9 clamp to `'9'`). -/
def digitChar : Nat → Char
  | 0 => '0'
  | 1 => '1'
  | 2 => '2'
  | 3 => '3'
  | 4 => '4'
  | 5 => '5'
  | 6 => '6'
  | 7 => '7'
  | 8 => '8'
  | _ => '9'

/-- Is `c` one of the characters `'0'`–`'9'`? -/
def isDigitCh (c : Char) : Bool :=
  decide (48 ≤ c.toNat) && decide (c.toNat ≤ 57)

/-- Numeric value of a digit character. -/
def digVal (c : Char) : Nat := c.toNat - 48

/-- Little-endian decimal digits of a natural number (empty for 0). -/
def natDigitsLE (n : Nat) : List Nat :=
  if n = 0 then [] else (n % 10) :: natDigitsLE (n / 10)
termination_by n
decreasing_by exact Nat.div_lt_self (Nat.pos_of_ne_zero (by assumption)) (by norm_num)

/-- Decimal character list of a natural number, most significant digit first. -/
def natReprL (n : Nat) : List Char :=
  if n = 0 then ['0'] else ((natDigitsLE n).reverse).map digitChar

/-- Decimal string of a natural number (model of JS `Number.toString` on naturals). -/
def natRepr (n : Nat) : String := String.mk (natReprL n)

/-- Decimal string of an integer (model of JS `Number.toString` on integers). -/
def intRepr (i : Int) : String :=
  if i < 0 then "-" ++ natRepr i.natAbs else natRepr i.toNat

/-- Exactly `f` fraction digit characters for the value `r` (`r < 10 ^ f`),
padded with leading zeros. -/
def padFrac (f r : Nat) : List Char :=
  List.replicate (f - (natDigitsLE r).length) '0' ++ ((natDigitsLE r).reverse).map digitChar

/-- Decimal string of the rational `m / 10 ^ f` with exactly `f` fraction digits
(no fraction part at all when `f = 0`). -/
def decStr (m f : Nat) : String :=
  if f = 0 then natRepr m
  else natRepr (m / 10 ^ f) ++ "." ++ String.mk (padFrac f (m % 10 ^ f))

/-- Whitespace characters skipped by `parseFloat`. -/
def wsChar (c : Char) : Bool :=
  c == ' ' || c == '\t' || c == '\n' || c == '\r'

/-- Drop leading whitespace. -/
def skipWs : List Char → List Char
  | [] => []
  | c :: cs => if wsChar c then skipWs cs else c :: cs

/-- Consume an optional leading sign; returns (isNegative, rest). -/
def parseSign (cs : List Char) : Bool × List Char :=
  match cs with
  | [] => (false, [])
  | c :: rest =>
    if c == '-' then (true, rest)
    else if c == '+' then (false, rest)
    else (false, c :: rest)

/-- Longest leading run of digit characters, and the rest. -/
def takeDigits : List Char → List Char × List Char
  | [] => ([], [])
  | c :: cs =>
    if isDigitCh c then
      let p := takeDigits cs
      (c :: p.1, p.2)
    else ([], c :: cs)

/-- Value of a most-significant-first digit character list. -/
def digitsVal (ds : List Char) : Nat :=
  ds.foldl (fun a c => 10 * a + digVal c) 0

/-- Exponent digits after the `e`/`E` marker: optional sign then digits. -/
def parseExpAfter (cs : List Char) : Option Int :=
  let sp := parseSign cs
  let dp := takeDigits sp.2
  if dp.1 = [] then none
  else some (if sp.1 then -(digitsVal dp.1 : Int) else (digitsVal dp.1 : Int))

/-- Optional exponent part of a float literal (`e`/`E`, sign, digits);
a malformed exponent is ignored, as `parseFloat` takes the longest valid prefix. -/
def parseExpOpt : List Char → Option Int
  | [] => none
  | c :: cs => if c == 'e' || c == 'E' then parseExpAfter cs else none

/-- Apply an optional decimal exponent. -/
def applyExp (v : ℚ) : Option Int → ℚ
  | none => v
  | some e => v * (10 : ℚ) ^ e

/-- Unsigned part of the `parseFloat` grammar: digits, optional point and
fraction digits, optional exponent.  Junk after the parsed prefix is ignored. -/
def parseUnsigned (cs : List Char) : Option ℚ :=
  let ip := takeDigits cs
  match ip.2 with
  | '.' :: rest =>
    let fp := takeDigits rest
    if ip.1 = [] ∧ fp.1 = [] then none
    else
      some (applyExp ((digitsVal ip.1 : ℚ) + (digitsVal fp.1 : ℚ) / 10 ^ fp.1.length)
        (parseExpOpt fp.2))
  | other =>
    if ip.1 = [] then none
    else some (applyExp (digitsVal ip.1 : ℚ) (parseExpOpt other))

/-- Exact-arithmetic model of JS `Number.parseFloat` on a character list:
skip whitespace, optional sign, then the longest numeric prefix; `none` is NaN. -/
def parseFloatL (cs : List Char) : Option ℚ :=
  let cs1 := skipWs cs
  let sp := parseSign cs1
  match parseUnsigned sp.2 with
  | none => none
  | some v => some (if sp.1 then -v else v)

/-- Exact-arithmetic model of JS `Number.parseFloat`. -/
def parseFloatQ (s : String) : Option ℚ := parseFloatL s.data

/-! ### Correctness lemmas for printing and parsing -/

theorem digVal_digitChar {d : Nat} (h : d < 10) : digVal (digitChar d) = d := by
  interval_cases d <;> rfl

theorem isDigitCh_digitChar {d : Nat} (h : d < 10) : isDigitCh (digitChar d) = true := by
  interval_cases d <;> rfl

theorem digitsVal_foldl (l : List Char) :
    ∀ a : Nat, l.foldl (fun a c => 10 * a + digVal c) a = a * 10 ^ l.length + digitsVal l := by
  induction l with
  | nil => intro a; simp [digitsVal]
  | cons x xs ih =>
    intro a
    have hx : digitsVal (x :: xs) = digVal x * 10 ^ xs.length + digitsVal xs := by
      show List.foldl _ _ (x :: xs) = _
      rw [List.foldl_cons, ih]
      norm_num
    rw [List.foldl_cons, ih, hx]
    simp only [List.length_cons, pow_succ]
    ring

theorem digitsVal_cons (c : Char) (cs : List Char) :
    digitsVal (c :: cs) = digitsVal cs + digVal c * 10 ^ cs.length := by
  show List.foldl _ _ (c :: cs) = _
  rw [List.foldl_cons, digitsVal_foldl]
  norm_num
  ring

theorem digitsVal_append (l1 l2 : List Char) :
    digitsVal (l1 ++ l2) = digitsVal l1 * 10 ^ l2.length + digitsVal l2 := by
  induction l1 with
  | nil => simp [digitsVal]
  | cons c cs ih =>
    rw [List.cons_append, digitsVal_cons, ih, digitsVal_cons]
    simp only [List.length_append]
    rw [pow_add]
    ring

theorem natDigitsLE_zero : natDigitsLE 0 = [] := by
  rw [natDigitsLE]
  simp

theorem natDigitsLE_of_ne {n : Nat} (h : n ≠ 0) :
    natDigitsLE n = (n % 10) :: natDigitsLE (n / 10) := by
  rw [natDigitsLE, if_neg h]

theorem natDigitsLE_lt (n : Nat) : ∀ d ∈ natDigitsLE n, d < 10 := by
  induction n using Nat.strong_induction_on with
  | _ n ih =>
    by_cases h : n = 0
    · subst h; rw [natDigitsLE_zero]; simp
    · rw [natDigitsLE_of_ne h]
      intro d hd
      rcases List.mem_cons.mp hd with h1 | h2
      · subst h1; exact Nat.mod_lt _ (by norm_num)
      · exact ih (n / 10) (Nat.div_lt_self (Nat.pos_of_ne_zero h) (by norm_num)) d h2

theorem natDigitsLE_length_le {n k : Nat} (h : n < 10 ^ k) :
    (natDigitsLE n).length ≤ k := by
  induction n using Nat.strong_induction_on generalizing k with
  | _ n ih =>
    by_cases h0 : n = 0
    · subst h0; rw [natDigitsLE_zero]; simp
    · rw [natDigitsLE_of_ne h0]
      rcases k with _ | k'
      · simp at h; omega
      · simp only [List.length_cons]
        have hd : n / 10 < 10 ^ k' := by
          apply Nat.div_lt_of_lt_mul
          calc n < 10 ^ (k' + 1) := h
            _ = 10 * 10 ^ k' := by rw [pow_succ]; ring
        have := ih (n / 10) (Nat.div_lt_self (Nat.pos_of_ne_zero h0) (by norm_num)) hd
        omega

theorem digitsVal_revDigits (n : Nat) :
    digitsVal ((natDigitsLE n).reverse.map digitChar) = n := by
  induction n using Nat.strong_induction_on with
  | _ n ih =>
    by_cases h : n = 0
    · subst h; rw [natDigitsLE_zero]; simp [digitsVal]
    · rw [natDigitsLE_of_ne h]
      simp only [List.reverse_cons, List.map_append, List.map_cons, List.map_nil]
      rw [digitsVal_append]
      have h1 : digitsVal [digitChar (n % 10)] = n % 10 := by
        rw [show [digitChar (n % 10)] = digitChar (n % 10) :: [] from rfl, digitsVal_cons]
        simp [digitsVal, digVal_digitChar (Nat.mod_lt n (by norm_num : (0:Nat) < 10))]
      rw [h1, ih (n / 10) (Nat.div_lt_self (Nat.pos_of_ne_zero h) (by norm_num))]
      simp only [List.length_cons, List.length_nil, pow_one]
      omega

theorem digitsVal_natReprL (n : Nat) : digitsVal (natReprL n) = n := by
  by_cases h : n = 0
  · subst h; rfl
  · rw [natReprL]
    simp only [h, if_false]
    exact digitsVal_revDigits n

theorem natReprL_all_digits (n : Nat) : ∀ c ∈ natReprL n, isDigitCh c = true := by
  rw [natReprL]
  by_cases h : n = 0
  · simp [h]; rfl
  · simp only [h, if_false]
    intro c hc
    rcases List.mem_map.mp hc with ⟨d, hd, hcd⟩
    subst hcd
    exact isDigitCh_digitChar (natDigitsLE_lt n d (List.mem_reverse.mp hd))

theorem natReprL_ne_nil (n : Nat) : natReprL n ≠ [] := by
  rw [natReprL]
  by_cases h : n = 0
  · simp [h]
  · simp only [h, if_false]
    intro hcontra
    rw [List.map_eq_nil_iff, List.reverse_eq_nil_iff, natDigitsLE_of_ne h] at hcontra
    exact List.cons_ne_nil _ _ hcontra

theorem digitsVal_replicate_zero (k : Nat) :
    digitsVal (List.replicate k '0') = 0 := by
  induction k with
  | zero => rfl
  | succ k ih =>
    rw [List.replicate_succ, digitsVal_cons, ih]
    simp [digVal]

theorem padFrac_all_digits (f r : Nat) : ∀ c ∈ padFrac f r, isDigitCh c = true := by
  intro c hc
  rw [padFrac] at hc
  rcases List.mem_append.mp hc with h1 | h2
  · rw [List.eq_of_mem_replicate h1]; rfl
  · rcases List.mem_map.mp h2 with ⟨d, hd, hcd⟩
    subst hcd
    exact isDigitCh_digitChar (natDigitsLE_lt r d (List.mem_reverse.mp hd))

theorem padFrac_length {f r : Nat} (h : r < 10 ^ f) : (padFrac f r).length = f := by
  rw [padFrac]
  have hlen : (natDigitsLE r).length ≤ f := natDigitsLE_length_le h
  simp only [List.length_append, List.length_replicate, List.length_map,
    List.length_reverse]
  omega

theorem digitsVal_padFrac (f r : Nat) : digitsVal (padFrac f r) = r := by
  rw [padFrac, digitsVal_append, digitsVal_replicate_zero, digitsVal_revDigits]
  simp

theorem beq_false_of_digit {c x : Char} (h : isDigitCh c = true)
    (hx : isDigitCh x = false) : (c == x) = false := by
  cases hb : c == x
  · rfl
  · have hcx : c = x := eq_of_beq hb
    rw [hcx] at h
    rw [h] at hx
    exact Bool.noConfusion hx

theorem wsChar_of_digit {c : Char} (h : isDigitCh c = true) : wsChar c = false := by
  rw [wsChar]
  rw [beq_false_of_digit h (by decide), beq_false_of_digit h (by decide),
    beq_false_of_digit h (by decide), beq_false_of_digit h (by decide)]
  rfl

theorem signChar_of_digit {c : Char} (h : isDigitCh c = true) :
    (c == '-') = false ∧ (c == '+') = false :=
  ⟨beq_false_of_digit h (by decide), beq_false_of_digit h (by decide)⟩

theorem skipWs_of_digit {c : Char} (cs : List Char) (h : isDigitCh c = true) :
    skipWs (c :: cs) = c :: cs := by
  rw [skipWs, wsChar_of_digit h]
  simp

theorem parseSign_of_digit {c : Char} (cs : List Char) (h : isDigitCh c = true) :
    parseSign (c :: cs) = (false, c :: cs) := by
  rw [parseSign]
  rcases signChar_of_digit h with ⟨h1, h2⟩
  simp [h1, h2]

theorem takeDigits_append (ds rest : List Char)
    (hds : ∀ c ∈ ds, isDigitCh c = true)
    (hrest : ∀ c cs', rest = c :: cs' → isDigitCh c = false) :
    takeDigits (ds ++ rest) = (ds, rest) := by
  induction ds with
  | nil =>
    simp only [List.nil_append]
    match rest with
    | [] => rfl
    | c :: cs' =>
      rw [takeDigits, hrest c cs' rfl]
      simp
  | cons c cs ih =>
    have hc : isDigitCh c = true := hds c (List.mem_cons_self c cs)
    rw [List.cons_append, takeDigits, hc]
    simp only [if_true]
    rw [ih fun x hx => hds x (List.mem_cons_of_mem c hx)]

theorem takeDigits_all (ds : List Char) (hds : ∀ c ∈ ds, isDigitCh c = true) :
    takeDigits ds = (ds, []) := by
  have := takeDigits_append ds [] hds (by intro c cs' h; cases h)
  simpa using this

theorem dot_not_digit : isDigitCh '.' = false := rfl

/-- Parsing an all-digit run yields its numeric value. -/
theorem parseFloatL_digits (ds : List Char)
    (hds : ∀ c ∈ ds, isDigitCh c = true) (hne : ds ≠ []) :
    parseFloatL ds = some ((digitsVal ds : ℚ)) := by
  match ds, hne with
  | c :: cs, _ =>
    have hc : isDigitCh c = true := hds c (List.mem_cons_self c cs)
    rw [parseFloatL]
    simp only [skipWs_of_digit cs hc, parseSign_of_digit cs hc]
    rw [parseUnsigned]
    simp only [takeDigits_all (c :: cs) hds]
    simp [parseExpOpt, applyExp]

/-- Parsing digits, a point, then digits yields the mixed-radix value. -/
theorem parseFloatL_digits_point (ds1 ds2 : List Char)
    (h1 : ∀ c ∈ ds1, isDigitCh c = true) (h2 : ∀ c ∈ ds2, isDigitCh c = true)
    (hne : ds1 ≠ []) :
    parseFloatL (ds1 ++ '.' :: ds2) =
      some ((digitsVal ds1 : ℚ) + (digitsVal ds2 : ℚ) / 10 ^ ds2.length) := by
  match ds1, hne with
  | c :: cs, _ =>
    have hc : isDigitCh c = true := h1 c (List.mem_cons_self c cs)
    rw [parseFloatL]
    have hsplit : takeDigits ((c :: cs) ++ '.' :: ds2) = (c :: cs, '.' :: ds2) :=
      takeDigits_append (c :: cs) ('.' :: ds2) h1
        (by intro x cs' hx; injection hx with hx1 _; subst hx1; rfl)
    rw [List.cons_append] at hsplit
    simp only [List.cons_append, skipWs_of_digit _ hc, parseSign_of_digit _ hc]
    rw [parseUnsigned]
    simp only [hsplit]
    simp only [takeDigits_all ds2 h2]
    have hnem : ¬((c :: cs) = [] ∧ ds2 = []) := by
      intro hcontra
      exact List.cons_ne_nil c cs hcontra.1
    simp [hnem, parseExpOpt, applyExp]

/-- Parsing the canonical fixed-point decimal string recovers the value. -/
theorem parseFloatQ_decStr (m f : Nat) :
    parseFloatQ (decStr m f) = some ((m : ℚ) / 10 ^ f) := by
  by_cases hf : f = 0
  · subst hf
    rw [decStr]
    simp only [if_true]
    show parseFloatL (natReprL m) = _
    rw [parseFloatL_digits (natReprL m) (natReprL_all_digits m) (natReprL_ne_nil m)]
    rw [digitsVal_natReprL]
    norm_num
  · rw [decStr, if_neg hf]
    have hdata : (natRepr (m / 10 ^ f) ++ "." ++ String.mk (padFrac f (m % 10 ^ f))).data
        = natReprL (m / 10 ^ f) ++ '.' :: padFrac f (m % 10 ^ f) := by
      rw [String.data_append, String.data_append]
      show natReprL (m / 10 ^ f) ++ ['.'] ++ padFrac f (m % 10 ^ f) = _
      rw [List.append_assoc]
      rfl
    show parseFloatL _ = _
    rw [hdata]
    rw [parseFloatL_digits_point _ _ (natReprL_all_digits _) (padFrac_all_digits _ _)
      (natReprL_ne_nil _)]
    rw [digitsVal_natReprL, digitsVal_padFrac,
      padFrac_length (Nat.mod_lt m (by positivity))]
    congr 1
    have hsum : 10 ^ f * (m / 10 ^ f) + m % 10 ^ f = m := Nat.div_add_mod m (10 ^ f)
    have hcast : ((m : ℚ)) = (10 ^ f : ℚ) * ((m / 10 ^ f : Nat) : ℚ) + ((m % 10 ^ f : Nat) : ℚ) := by
      exact_mod_cast congrArg (fun x : Nat => (x : ℚ)) hsum.symm
    field_simp
    rw [hcast]
    ring

/-! ### Embedding of `src/lib/ccip-utils.ts` amount conversions -/

/-- Embedding of `toRawTokenAmount` from `src/lib/ccip-utils.ts`:
`parseFloat` the input (returning `"0"` on NaN), multiply by `10 ^ decimals`,
`Math.floor`, and render the result with `toString`. -/
def toRawTokenAmount (amount : String) (decimals : Nat) : String :=
  match parseFloatQ amount with
  | none => "0"
  | some v => intRepr ⌊v * 10 ^ decimals⌋

/-- Exact model of JS `Number.prototype.toFixed(d)`: extract the sign, round
the magnitude to `d` fraction digits (ties away from zero), print with exactly
`d` fraction digits. -/
def toFixedQ (q : ℚ) (d : Nat) : String :=
  let sgn := if q < 0 then "-" else ""
  sgn ++ decStr (⌊|q| * 10 ^ d + 1 / 2⌋).toNat d

/-- Search for the least `k` (starting at `k`, up to `fuel` more steps) with
`x * 10 ^ k` integral. -/
def ratSearchPow (x : ℚ) : Nat → Nat → Option Nat
  | _, 0 => none
  | k, fuel + 1 =>
    if (x * 10 ^ k).den = 1 then some k else ratSearchPow x (k + 1) fuel

/-- Model of JS `Number.prototype.toString` on terminating decimals: shortest
decimal representation (minimal number of fraction digits, no trailing zeros). -/
def jsNumToString (q : ℚ) : String :=
  let sgn := if q < 0 then "-" else ""
  match ratSearchPow |q| 0 (|q|.den + 1) with
  | some k => sgn ++ decStr (|q| * 10 ^ k).num.toNat k
  | none => sgn ++ intRepr ⌊|q|⌋

/-- Embedding of `formatTokenAmount` from `src/lib/ccip-utils.ts`:
`parseFloat`, divide by `10 ^ decimals`, `toFixed(6)`, then
`parseFloat(...).toString()` (which strips trailing zeros). -/
def formatTokenAmount (amount : String) (decimals : Nat) : String :=
  match parseFloatQ amount with
  | none => "0"
  | some v =>
    match parseFloatQ (toFixedQ (v / 10 ^ decimals) 6) with
    | none => "NaN"
    | some u => jsNumToString u

/-- The truncation toward zero that the specification's words describe
(for comparison with the `Math.floor` the code actually performs). -/
def specTruncTowardZero (q : ℚ) : Int :=
  if 0 ≤ q then ⌊q⌋ else -⌊-q⌋

/-! ### Lemmas about the amount conversions -/

theorem toRaw_decStr (a f n : Nat) (hfn : f ≤ n) :
    toRawTokenAmount (decStr a f) n = natRepr (a * 10 ^ (n - f)) := by
  rw [toRawTokenAmount, parseFloatQ_decStr]
  show intRepr ⌊((a : ℚ) / 10 ^ f) * 10 ^ n⌋ = natRepr (a * 10 ^ (n - f))
  have hval : ((a : ℚ) / 10 ^ f) * 10 ^ n = ((a * 10 ^ (n - f) : Nat) : ℚ) := by
    have hpow : (10 : ℚ) ^ n = 10 ^ f * 10 ^ (n - f) := by
      rw [← pow_add]
      congr 1
      omega
    rw [hpow]
    push_cast
    field_simp
    ring
  rw [hval, Int.floor_natCast, intRepr]
  rw [if_neg (not_lt.mpr (Int.natCast_nonneg _)), Int.toNat_natCast]

theorem toFixedQ_exact (q : ℚ) (d : Nat) (m : Nat)
    (hm : q * 10 ^ d = (m : ℚ)) (hq : 0 ≤ q) :
    toFixedQ q d = decStr m d := by
  rw [toFixedQ, abs_of_nonneg hq]
  have hlt : ¬ q < 0 := not_lt.mpr hq
  have hfloor : ⌊q * 10 ^ d + 1 / 2⌋ = (m : Int) := by
    rw [hm, Int.floor_eq_iff]
    constructor
    · push_cast; linarith
    · push_cast; linarith
  rw [hfloor]
  simp [hlt]

theorem den_div_pow_eq_one_iff (a m : Nat) :
    (((a : ℚ) / 10 ^ m).den = 1) ↔ 10 ^ m ∣ a := by
  constructor
  · intro h
    have hq : ((a : ℚ) / 10 ^ m) = ((((a : ℚ) / 10 ^ m).num : ℚ)) :=
      (Rat.coe_int_num_of_den_eq_one h).symm
    have hnum : (0 : ℚ) ≤ ((a : ℚ) / 10 ^ m) := by positivity
    have hznn : 0 ≤ ((a : ℚ) / 10 ^ m).num := Rat.num_nonneg.mpr hnum
    have ha : (a : ℚ) = (((a : ℚ) / 10 ^ m).num : ℚ) * 10 ^ m := by
      rw [← hq]
      field_simp
    have haz : (a : Int) = ((a : ℚ) / 10 ^ m).num * 10 ^ m := by exact_mod_cast ha
    refine ⟨((a : ℚ) / 10 ^ m).num.toNat, ?_⟩
    have hfin : (a : Int) = ((10 ^ m * ((a : ℚ) / 10 ^ m).num.toNat : Nat) : Int) := by
      push_cast
      rw [Int.toNat_of_nonneg hznn]
      linarith
    exact_mod_cast hfin
  · rintro ⟨c, hc⟩
    subst hc
    have : (((10 ^ m * c : Nat) : ℚ) / 10 ^ m) = (c : ℚ) := by
      push_cast
      field_simp
    rw [this, Rat.den_natCast]

theorem den_one_mul_pow {q : ℚ} {j k : Nat} (hjk : j ≤ k)
    (h : (q * 10 ^ j).den = 1) : (q * 10 ^ k).den = 1 := by
  have : q * 10 ^ k = (q * 10 ^ j) * 10 ^ (k - j) := by
    rw [mul_assoc, ← pow_add]
    congr 2
    omega
  rw [this, ← Rat.coe_int_num_of_den_eq_one h]
  have : ((q * 10 ^ j).num : ℚ) * 10 ^ (k - j)
      = (((q * 10 ^ j).num * 10 ^ (k - j) : Int) : ℚ) := by push_cast; ring
  rw [this, Rat.den_intCast]

theorem ratSearchPow_eq (x : ℚ) (f : Nat) :
    ∀ fuel k, k ≤ f → f < k + fuel →
      (∀ j, k ≤ j → j < f → (x * 10 ^ j).den ≠ 1) → (x * 10 ^ f).den = 1 →
      ratSearchPow x k fuel = some f := by
  intro fuel
  induction fuel with
  | zero => intro k h1 h2 _ _; omega
  | succ fuel ih =>
    intro k h1 h2 hnot hat
    rw [ratSearchPow]
    by_cases hk : (x * 10 ^ k).den = 1
    · have : k = f := by
        by_contra hne
        exact hnot k le_rfl (lt_of_le_of_ne h1 hne) hk
      rw [if_pos hk, this]
    · rw [if_neg hk]
      have hkf : k ≠ f := by
        intro hcontra
        subst hcontra
        exact hk hat
      exact ih (k + 1) (by omega) (by omega)
        (fun j hj1 hj2 => hnot j (by omega) hj2) hat

theorem mul_natCast_den_one {q : ℚ} {n : Nat} (h : q.den ∣ n) :
    (q * (n : ℚ)).den = 1 := by
  obtain ⟨c, hc⟩ := h
  have hden : ((q.den : ℚ)) ≠ 0 := Nat.cast_ne_zero.mpr q.den_nz
  have key : q * (q.den : ℚ) = (q.num : ℚ) := (eq_div_iff hden).mp (Rat.num_div_den q).symm
  have hval : q * (n : ℚ) = ((q.num * c : Int) : ℚ) := by
    have hn : (n : ℚ) = (q.den : ℚ) * (c : ℚ) := by
      rw [hc]; push_cast; ring
    rw [hn, ← mul_assoc, key]
    push_cast
    ring
  rw [hval, Rat.den_intCast]

theorem den_div_pow_dvd (a m : Nat) : (((a : ℚ) / 10 ^ m).den : Int) ∣ (10 ^ m : Int) := by
  have h2 : (Rat.divInt (a : Int) (10 ^ m : Int)) = ((a : Int) : ℚ) / ((10 ^ m : Int) : ℚ) :=
    Rat.divInt_eq_div _ _
  have h3 := Rat.den_dvd (a : Int) (10 ^ m : Int)
  rw [h2] at h3
  have h1 : ((a : ℚ) / 10 ^ m) = ((a : Int) : ℚ) / ((10 ^ m : Int) : ℚ) := by
    push_cast; ring
  rw [h1]
  exact h3

/-- For `x = a / 10 ^ f` in lowest fraction form (`f = 0` or `10 ∤ a`), the
least power of ten clearing the denominator is exactly `f`, and `f` is within
the search budget `x.den`. -/
theorem jsNumToString_decStr (a f : Nat) (hcanon : f = 0 ∨ ¬ (10 ∣ a)) :
    jsNumToString ((a : ℚ) / 10 ^ f) = decStr a f := by
  set x : ℚ := (a : ℚ) / 10 ^ f with hxdef
  have hx0 : 0 ≤ x := by rw [hxdef]; positivity
  have habs : |x| = x := abs_of_nonneg hx0
  have hsgn : ¬ x < 0 := not_lt.mpr hx0
  have hxj : ∀ j, j ≤ f → x * 10 ^ j = (a : ℚ) / 10 ^ (f - j) := by
    intro j hj
    rw [hxdef]
    have hpow : (10 : ℚ) ^ f = 10 ^ (f - j) * 10 ^ j := by
      rw [← pow_add]; congr 1; omega
    rw [hpow]
    have h10j : ((10 : ℚ) ^ j) ≠ 0 := by positivity
    have h10fj : ((10 : ℚ) ^ (f - j)) ≠ 0 := by positivity
    field_simp
    ring
  have hat : (x * 10 ^ f).den = 1 := by
    rw [hxj f le_rfl]
    simp only [Nat.sub_self, pow_zero, div_one, Rat.den_natCast]
  have hnot : ∀ j, 0 ≤ j → j < f → (x * 10 ^ j).den ≠ 1 := by
    intro j _ hjf hcontra
    rcases hcanon with hf0 | hndvd
    · omega
    · rw [hxj j (le_of_lt hjf)] at hcontra
      have hdvd := (den_div_pow_eq_one_iff a (f - j)).mp hcontra
      have h10 : (10 : Nat) ∣ a := dvd_trans (dvd_pow_self 10 (by omega : f - j ≠ 0)) hdvd
      exact hndvd h10
  have hbound : f ≤ x.den := by
    rcases hcanon with hf0 | hndvd
    · omega
    · by_cases hf0 : f = 0
      · omega
      · -- x.den divides 10 ^ f but not 10 ^ (f - 1), hence has full 2- or 5-power
        have hdvd10f : x.den ∣ 10 ^ f := by
          have := den_div_pow_dvd a f
          rw [← hxdef] at this
          exact_mod_cast this
        have hnotdvd : ¬ x.den ∣ 10 ^ (f - 1) := by
          intro hcontra
          have hint : (x * 10 ^ (f - 1)).den = 1 := by
            have : ((10 ^ (f - 1) : Nat) : ℚ) = (10 : ℚ) ^ (f - 1) := by push_cast; ring
            rw [← this]
            exact mul_natCast_den_one hcontra
          exact hnot (f - 1) (Nat.zero_le _) (by omega) hint
        have hmul : x.den ∣ 2 ^ f * 5 ^ f := by
          have : (10 : Nat) ^ f = 2 ^ f * 5 ^ f := by
            norm_num [← mul_pow]
          rw [this] at hdvd10f
          exact hdvd10f
        obtain ⟨y, z, hy, hz, hyz⟩ := Nat.dvd_mul.mp hmul
        obtain ⟨α, hα, hyα⟩ := (Nat.dvd_prime_pow Nat.prime_two).mp hy
        obtain ⟨β, hβ, hzβ⟩ := (Nat.dvd_prime_pow (by norm_num : Nat.Prime 5)).mp hz
        have hfull : α = f ∨ β = f := by
          by_contra hcontra
          push_neg at hcontra
          apply hnotdvd
          have hα1 : α ≤ f - 1 := by omega
          have hβ1 : β ≤ f - 1 := by omega
          have h1 : x.den = 2 ^ α * 5 ^ β := by rw [← hyz, hyα, hzβ]
          have h2 : (2 : Nat) ^ α * 5 ^ β ∣ 2 ^ (f - 1) * 5 ^ (f - 1) :=
            mul_dvd_mul (pow_dvd_pow 2 hα1) (pow_dvd_pow 5 hβ1)
          have h3 : (10 : Nat) ^ (f - 1) = 2 ^ (f - 1) * 5 ^ (f - 1) := by
            norm_num [← mul_pow]
          rw [h1, h3]
          exact h2
        have h2f : 2 ^ f ≤ x.den := by
          have h1 : x.den = 2 ^ α * 5 ^ β := by rw [← hyz, hyα, hzβ]
          rcases hfull with hαf | hβf
          · rw [hαf] at h1
            calc 2 ^ f ≤ 2 ^ f * 5 ^ β := Nat.le_mul_of_pos_right _ (by positivity)
              _ = x.den := h1.symm
          · rw [hβf] at h1
            calc 2 ^ f ≤ 5 ^ f := Nat.pow_le_pow_left (by norm_num) f
              _ ≤ 2 ^ α * 5 ^ f := Nat.le_mul_of_pos_left _ (by positivity)
              _ = x.den := h1.symm
        have := Nat.lt_two_pow f
        omega
  have hsearch : ratSearchPow |x| 0 (|x|.den + 1) = some f := by
    rw [habs]
    exact ratSearchPow_eq x f (x.den + 1) 0 (Nat.zero_le f) (by omega) hnot hat
  have hnum : (|x| * 10 ^ f).num.toNat = a := by
    rw [habs, hxj f le_rfl]
    simp only [Nat.sub_self, pow_zero, div_one, Rat.num_natCast, Int.toNat_natCast]
  rw [jsNumToString, hsearch]
  simp only [hnum, hsgn, if_false]
  rw [String.empty_append]

theorem nat_mul_pow_div (a f n : Nat) (hfn : f ≤ n) :
    ((a * 10 ^ (n - f) : Nat) : ℚ) / 10 ^ n = (a : ℚ) / 10 ^ f := by
  have hpow : (10 : ℚ) ^ n = 10 ^ (n - f) * 10 ^ f := by
    rw [← pow_add]; congr 1; omega
  have h1 : ((10 : ℚ) ^ (n - f)) ≠ 0 := by positivity
  have h2 : ((10 : ℚ) ^ f) ≠ 0 := by positivity
  push_cast
  rw [hpow]
  field_simp
  ring

/-- The display/raw round trip of `ccip-utils` recovers a canonical decimal
string with at most `min n 6` fraction digits. -/
theorem formatTokenAmount_toRaw (a f n : Nat) (h6 : f ≤ 6) (hn : f ≤ n)
    (hc : f = 0 ∨ ¬ (10 ∣ a)) :
    formatTokenAmount (toRawTokenAmount (decStr a f) n) n = decStr a f := by
  rw [toRaw_decStr a f n hn]
  have hparse1 : parseFloatQ (natRepr (a * 10 ^ (n - f)))
      = some ((a * 10 ^ (n - f) : Nat) : ℚ) := by
    have hd := parseFloatQ_decStr (a * 10 ^ (n - f)) 0
    rw [decStr] at hd
    simpa using hd
  have hfix : toFixedQ ((a : ℚ) / 10 ^ f) 6 = decStr (a * 10 ^ (6 - f)) 6 := by
    apply toFixedQ_exact
    · have hkey := nat_mul_pow_div a f 6 h6
      rw [div_eq_iff (by positivity : ((10 : ℚ) ^ 6) ≠ 0)] at hkey
      exact hkey.symm
    · positivity
  simp only [formatTokenAmount, hparse1, nat_mul_pow_div a f n hn, hfix,
    parseFloatQ_decStr, nat_mul_pow_div a f 6 h6]
  exact jsNumToString_decStr a f hc

theorem parseUnsigned_digits_point (ds1 ds2 : List Char)
    (h1 : ∀ c ∈ ds1, isDigitCh c = true) (h2 : ∀ c ∈ ds2, isDigitCh c = true)
    (hne : ds1 ≠ []) :
    parseUnsigned (ds1 ++ '.' :: ds2)
      = some ((digitsVal ds1 : ℚ) + (digitsVal ds2 : ℚ) / 10 ^ ds2.length) := by
  have hsplit : takeDigits (ds1 ++ '.' :: ds2) = (ds1, '.' :: ds2) :=
    takeDigits_append ds1 ('.' :: ds2) h1
      (by intro x cs' hx; injection hx with hx1 _; subst hx1; rfl)
  rw [parseUnsigned]
  simp only [hsplit]
  simp only [takeDigits_all ds2 h2]
  have hnem : ¬(ds1 = [] ∧ ds2 = []) := fun hcontra => hne hcontra.1
  simp [hnem, parseExpOpt, applyExp]

theorem parseFloatL_neg_digits_point (ds1 ds2 : List Char)
    (h1 : ∀ c ∈ ds1, isDigitCh c = true) (h2 : ∀ c ∈ ds2, isDigitCh c = true)
    (hne : ds1 ≠ []) :
    parseFloatL ('-' :: (ds1 ++ '.' :: ds2))
      = some (-((digitsVal ds1 : ℚ) + (digitsVal ds2 : ℚ) / 10 ^ ds2.length)) := by
  rw [parseFloatL]
  have hskip : skipWs ('-' :: (ds1 ++ '.' :: ds2)) = '-' :: (ds1 ++ '.' :: ds2) := by
    rw [skipWs]
    simp [wsChar]
  have hsign : parseSign ('-' :: (ds1 ++ '.' :: ds2)) = (true, ds1 ++ '.' :: ds2) := by
    rw [parseSign]
    simp
  simp only [hskip, hsign, parseUnsigned_digits_point ds1 ds2 h1 h2 hne]
  simp

/-! ### String helpers (ASCII models of the JS string operations used) -/

/-- ASCII model of `String.prototype.toLowerCase`. -/
def charLower (c : Char) : Char :=
  if 65 ≤ c.toNat ∧ c.toNat ≤ 90 then Char.ofNat (c.toNat + 32) else c

/-- ASCII model of `String.prototype.toLowerCase`. -/
def strToLower (s : String) : String := String.mk (s.data.map charLower)

/-- Model of `String.prototype.slice(0, n)`. -/
def strTake (s : String) (n : Nat) : String := String.mk (s.data.take n)

/-- Does `pat` occur at the start of `cs`? -/
def strStartsWithL : List Char → List Char → Bool
  | [], _ => true
  | _ :: _, [] => false
  | p :: ps, c :: cs => p == c && strStartsWithL ps cs

/-- Does `pat` occur anywhere in `cs`?  Model of `String.prototype.includes`. -/
def strContainsL (pat : List Char) : List Char → Bool
  | [] => strStartsWithL pat []
  | c :: cs => strStartsWithL pat (c :: cs) || strContainsL pat cs

/-- Model of `String.prototype.includes`. -/
def strContains (s pat : String) : Bool := strContainsL pat.data s.data

/-! ### Embedding of the configuration module (`ccip-config`) -/

/-- Account addresses.  A 32-byte public key is its 256-bit value; associated
token accounts are program-derived from owner and mint, modelled by the
injective constructor `ata`. -/
inductive Addr where
  | key (value : Nat)
  | ata (owner mint : Addr)
deriving DecidableEq

/-- `PublicKey.default`: the all-zero 32-byte key. -/
def pubkeyDefault : Addr := Addr.key 0

/-- The base58 alphabet used by Solana keys. -/
def base58Alphabet : List Char :=
  "123456789ABCDEFGHJKLMNPQRSTUVWXYZabcdefghijkmnopqrstuvwxyz".data

/-- Value of a base58 digit character. -/
def base58Digit (c : Char) : Option Nat :=
  base58Alphabet.findIdx? (fun x => x == c)

/-- Big-endian base58 value of a character list (`none` on a foreign character). -/
def base58ValAux (acc : Nat) : List Char → Option Nat
  | [] => some acc
  | c :: cs =>
    match base58Digit c with
    | none => none
    | some d => base58ValAux (58 * acc + d) cs

/-- Number of leading `'1'` characters (each stands for one zero byte). -/
def countLeadingOnes : List Char → Nat
  | [] => 0
  | c :: cs => if c == '1' then countLeadingOnes cs + 1 else 0

/-- Number of bytes in the minimal big-endian encoding of `n` (64 iterations
suffice for any 256-bit value). -/
def byteLenAux : Nat → Nat → Nat
  | 0, _ => 0
  | fuel + 1, n => if n = 0 then 0 else byteLenAux fuel (n / 256) + 1

/-- Model of `new PublicKey(string)`: base58-decode and require exactly
32 bytes; `none` models the constructor throwing. -/
def parsePublicKey (s : String) : Option Addr :=
  match base58ValAux 0 s.data with
  | none => none
  | some v =>
    if countLeadingOnes s.data + byteLenAux 64 v = 32 then some (Addr.key v) else none

/-- Key constructed from a base58 literal in the configuration module. -/
def pkOf (s : String) : Addr := (parsePublicKey s).getD pubkeyDefault

/-- Supported chain identifiers (`ChainId` enum of the configuration module). -/
inductive ChainId where
  | ETHEREUM_SEPOLIA
  | BASE_SEPOLIA
  | OPTIMISM_SEPOLIA
  | BSC_TESTNET
  | ARBITRUM_SEPOLIA
  | SOLANA_DEVNET
  | SONIC_BLAZE
deriving DecidableEq, Fintype

/-- String value of a `ChainId` (the enum is string-valued in the source). -/
def chainIdStr : ChainId → String
  | .ETHEREUM_SEPOLIA => "ethereum-sepolia"
  | .BASE_SEPOLIA => "base-sepolia"
  | .OPTIMISM_SEPOLIA => "optimism-sepolia"
  | .BSC_TESTNET => "bsc-testnet"
  | .ARBITRUM_SEPOLIA => "arbitrum-sepolia"
  | .SOLANA_DEVNET => "solana-devnet"
  | .SONIC_BLAZE => "sonic-blaze"

/-- The `CHAIN_SELECTORS` record: routing selector of each supported chain. -/
def CHAIN_SELECTORS : ChainId → Nat
  | .ETHEREUM_SEPOLIA => 16015286601757825753
  | .BASE_SEPOLIA => 10344971235874465080
  | .OPTIMISM_SEPOLIA => 5224473277236331295
  | .BSC_TESTNET => 13264668187771770619
  | .ARBITRUM_SEPOLIA => 3478487238524512106
  | .SOLANA_DEVNET => 16423721717087811551
  | .SONIC_BLAZE => 3676871237479449268

/-- The `TOKEN_2022_PROGRAM_ID` constant of `@solana/spl-token`. -/
def TOKEN_2022_PROGRAM_ID : Addr := pkOf "TokenzQdBNbLqP5VEhdkAS6EPFLC1PHnBqCXEpPxuEb"

/-- The `NATIVE_MINT` constant of `@solana/spl-token` (wrapped SOL). -/
def NATIVE_MINT_ADDR : Addr := pkOf "So11111111111111111111111111111111111111112"

/-- The system program id (`11111111111111111111111111111111`, all-zero key). -/
def systemProgramId : Addr := pkOf "11111111111111111111111111111111"

/-- Fields of `SVMChainConfig` relevant to the embedded operations. -/
structure SVMConfigE where
  id : ChainId
  name : String
  routerProgramId : Addr
  feeQuoterProgramId : Addr
  rmnRemoteProgramId : Addr
  bnmTokenMint : Addr
  linkTokenMint : Addr
  wrappedNativeMint : Addr
  explorerUrl : String
  nativeSol : Addr
  sysProgramId : Addr
  receiverProgramId : Addr
deriving DecidableEq

/-- The Solana Devnet entry of `SVM_CONFIGS`. -/
def solanaDevnetConfig : SVMConfigE :=
  { id := ChainId.SOLANA_DEVNET
    name := "Solana Devnet"
    routerProgramId := pkOf "Ccip842gzYHhvdDkSyi2YVCoAWPbYJoApMFzSxQroE9C"
    feeQuoterProgramId := pkOf "FeeQPGkKDeRV1MgoYfMH6L8o3KeuYjwUZrgn4LRKfjHi"
    rmnRemoteProgramId := pkOf "RmnXLft1mSEwDgMKu2okYuHkiazxntFFcZFrrcXxYg7"
    bnmTokenMint := pkOf "3PjyGzj1jGVgHSKS4VR1Hr1memm63PmN8L9rtPDKwzZ6"
    linkTokenMint := pkOf "LinkhB3afbBKb2EQQu7s7umdZceV3wcvAUJhQAfQ23L"
    wrappedNativeMint := NATIVE_MINT_ADDR
    explorerUrl := "https://explorer.solana.com/tx/"
    nativeSol := pubkeyDefault
    sysProgramId := systemProgramId
    receiverProgramId := pkOf "BqmcnLFSbKwyMEgi7VhVeJCis1wW26VySztF34CJrKFq" }

/-- Embedding of `getCCIPSVMConfig`: only Solana Devnet is supported, any
other chain id throws. -/
def getCCIPSVMConfig (chainId : ChainId) : Except String SVMConfigE :=
  if chainId = ChainId.SOLANA_DEVNET then Except.ok solanaDevnetConfig
  else Except.error ("Unsupported SVM chain ID: " ++ chainIdStr chainId)

/-- Embedding of `getSVMFeeToken`: total selection of the fee token public
key from an optional fee-token-type string.  `none` and the empty string are
the falsy cases of the source's `!feeTokenType` check. -/
def getSVMFeeToken (config : SVMConfigE) (feeTokenType : Option String) : Addr :=
  match feeTokenType with
  | none => pubkeyDefault
  | some s =>
    if s = "" then pubkeyDefault
    else if strToLower s = "native" then pubkeyDefault
    else if strToLower s = "wrapped-native" then config.wrappedNativeMint
    else if strToLower s = "link" then config.linkTokenMint
    else
      match parsePublicKey s with
      | some k => k
      | none => pubkeyDefault

/-! ### Embedding of `src/lib/ccip-client.ts` -/

deriving instance DecidableEq for Except

/-- One entry of `config.tokenAmounts`. -/
structure TokenAmount where
  tokenMint : String
  amount : String
deriving DecidableEq

/-- The `extraArgs` object of a CCIP message configuration. -/
structure ExtraArgs where
  gasLimit : Int
  allowOutOfOrderExecution : Bool
deriving DecidableEq

/-- Embedding of `CCIPMessageConfig`. -/
structure CCIPMessageConfigE where
  destinationChain : ChainId
  destinationChainSelector : String
  evmReceiverAddress : String
  tokenAmounts : List TokenAmount
  feeToken : String
  messageData : String
  extraArgs : ExtraArgs
deriving DecidableEq

/-- Hex digit character (lower case), for JSON control-character escapes. -/
def hexDigitChar (n : Nat) : Char :=
  if n < 10 then digitChar n
  else if n = 10 then 'a'
  else if n = 11 then 'b'
  else if n = 12 then 'c'
  else if n = 13 then 'd'
  else if n = 14 then 'e'
  else 'f'

/-- JSON escape of a single character, as `JSON.stringify` performs it. -/
def jsonEscapeChar (c : Char) : List Char :=
  if c == '\x22' then ['\\', '\x22']
  else if c == '\\' then ['\\', '\\']
  else if c == '\x08' then ['\\', 'b']
  else if c == '\t' then ['\\', 't']
  else if c == '\n' then ['\\', 'n']
  else if c == '\x0c' then ['\\', 'f']
  else if c == '\r' then ['\\', 'r']
  else if c.toNat < 32 then
    ['\\', 'u', '0', '0', hexDigitChar (c.toNat / 16), hexDigitChar (c.toNat % 16)]
  else [c]

/-- JSON escape of a string body. -/
def jsonEscape (s : String) : String := String.mk ((s.data.map jsonEscapeChar).flatten)

/-- A JSON string literal. -/
def jsonStr (s : String) : String := "\x22" ++ jsonEscape s ++ "\x22"

/-- JSON serialization of one `tokenAmounts` element, key order as constructed
by the transfer form (`tokenMint`, then `amount`). -/
def jsonTokenAmount (t : TokenAmount) : String :=
  "\x7b\x22tokenMint\x22:" ++ jsonStr t.tokenMint ++ ",\x22amount\x22:" ++ jsonStr t.amount ++ "\x7d"

/-- Comma-separated concatenation, as `JSON.stringify` renders array elements. -/
def joinComma : List String → String
  | [] => ""
  | [s] => s
  | s :: rest => s ++ "," ++ joinComma rest

/-- Embedding of `encodeCCIPMessage`: the instruction data is
`Buffer.from(JSON.stringify(data))`, i.e. the UTF-8 bytes of the JSON text of
the `data` object literal, keys in insertion order.  The returned string IS
that JSON text (the Buffer holds its UTF-8 bytes). -/
def encodeCCIPMessage (config : CCIPMessageConfigE) : String :=
  "\x7b\x22destinationChainSelector\x22:" ++ jsonStr config.destinationChainSelector
    ++ ",\x22receiver\x22:" ++ jsonStr config.evmReceiverAddress
    ++ ",\x22tokenAmounts\x22:[" ++ joinComma (config.tokenAmounts.map jsonTokenAmount)
    ++ "],\x22feeToken\x22:" ++ jsonStr config.feeToken
    ++ ",\x22messageData\x22:" ++ jsonStr config.messageData
    ++ ",\x22extraArgs\x22:\x7b\x22gasLimit\x22:" ++ intRepr config.extraArgs.gasLimit
    ++ ",\x22allowOutOfOrderExecution\x22:"
    ++ (if config.extraArgs.allowOutOfOrderExecution then "true" else "false")
    ++ "\x7d\x7d"

/-- An account reference in an instruction. -/
structure AccountMeta where
  pubkey : Addr
  isSigner : Bool
  isWritable : Bool
deriving DecidableEq

/-- The instructions the transaction builder can emit. -/
inductive Instruction where
  | computeBudget (units : Nat)
  | createATA (payer ataAddr owner mint tokenProgram : Addr)
  | ccipSend (keys : List AccountMeta) (programId : Addr) (data : String)
deriving DecidableEq

/-- `getAssociatedTokenAddress(mint, owner, false, TOKEN_2022_PROGRAM_ID)`:
the program-derived associated token account address. -/
def getAssociatedTokenAddress (mint owner : Addr) : Addr := Addr.ata owner mint

/-- Account keys contributed by the token list inside
`buildCCIPSendInstruction`: for each token, its associated token account
(writable) then its mint (read-only); `new PublicKey` may throw. -/
def buildSendKeys (pk : Addr) : List TokenAmount → Except String (List AccountMeta)
  | [] => Except.ok []
  | t :: ts =>
    match parsePublicKey t.tokenMint with
    | none => Except.error "Invalid public key input"
    | some mint =>
      (buildSendKeys pk ts).map fun rest =>
        { pubkey := getAssociatedTokenAddress mint pk, isSigner := false, isWritable := true }
          :: { pubkey := mint, isSigner := false, isWritable := false } :: rest

/-- Embedding of `buildCCIPSendInstruction`: sender, router, fee-quoter and
system program, then the per-token keys, with the encoded message body. -/
def buildCCIPSendInstruction (pk : Addr) (cfg : SVMConfigE) (config : CCIPMessageConfigE) :
    Except String Instruction :=
  (buildSendKeys pk config.tokenAmounts).map fun tokenKeys =>
    Instruction.ccipSend
      ({ pubkey := pk, isSigner := true, isWritable := true }
        :: { pubkey := cfg.routerProgramId, isSigner := false, isWritable := false }
        :: { pubkey := cfg.feeQuoterProgramId, isSigner := false, isWritable := false }
        :: { pubkey := systemProgramId, isSigner := false, isWritable := false }
        :: tokenKeys)
      cfg.routerProgramId (encodeCCIPMessage config)

/-- The conditional create-associated-token-account instructions of
`buildCCIPTransaction`: one per token whose account the ledger lookup
(`getAccount`) reports missing, in request order. -/
def buildATAList (accountOf : Addr → Option Nat) (pk : Addr) :
    List TokenAmount → Except String (List Instruction)
  | [] => Except.ok []
  | t :: ts =>
    match parsePublicKey t.tokenMint with
    | none => Except.error "Invalid public key input"
    | some mint =>
      (buildATAList accountOf pk ts).map fun rest =>
        match accountOf (getAssociatedTokenAddress mint pk) with
        | some _ => rest
        | none =>
          Instruction.createATA pk (getAssociatedTokenAddress mint pk) pk mint
            TOKEN_2022_PROGRAM_ID :: rest

/-- Embedding of `buildCCIPTransaction`: compute-budget instruction, then the
conditional account-creation instructions, then the single CCIP send
instruction.  (The fetched blockhash and fee payer are transaction fields,
not instructions, and are not part of the instruction list.) -/
def buildCCIPTransaction (accountOf : Addr → Option Nat) (pk : Addr) (cfg : SVMConfigE)
    (config : CCIPMessageConfigE) (computeUnits : Nat) : Except String (List Instruction) :=
  match buildATAList accountOf pk config.tokenAmounts with
  | Except.error e => Except.error e
  | Except.ok atas =>
    match buildCCIPSendInstruction pk cfg config with
    | Except.error e => Except.error e
    | Except.ok send => Except.ok (Instruction.computeBudget computeUnits :: (atas ++ [send]))

/-- Model of `BigInt(string)` on plain decimal input: optional whitespace,
optional sign, decimal digits, optional trailing whitespace; whitespace-only
input is `0`; anything else throws (`none`). -/
def parseBigInt (s : String) : Option Int :=
  match skipWs s.data with
  | [] => some 0
  | cs =>
    let sp := parseSign cs
    let dp := takeDigits sp.2
    if dp.1 = [] then none
    else
      match skipWs dp.2 with
      | [] => some (if sp.1 then -(digitsVal dp.1 : Int) else (digitsVal dp.1 : Int))
      | _ => none

/-- The distinguishable failure causes raised inside the transfer flow; each
constructor carries the data its source error message interpolates. -/
inductive FailCause where
  | invalidPublicKey (input : String)
  | tokenAccountMissing (mint : String)
  | insufficientTokenBalance (required : Int) (available : Nat)
  | invalidAmount (input : String)
  | signatureRejected (msg : String)
  | sendFailed (msg : String)
  | confirmFailed
deriving DecidableEq

/-- Embedding of `validateTokenBalances`: per token, derive the associated
token account, look it up (missing account is the distinct
`tokenAccountMissing` error carrying the mint), parse the required amount,
and compare (shortfall is the distinct `insufficientTokenBalance` error
carrying required and available amounts). -/
def validateTokenBalances (accountOf : Addr → Option Nat) (pk : Addr) :
    List TokenAmount → Except FailCause Unit
  | [] => Except.ok ()
  | t :: ts =>
    match parsePublicKey t.tokenMint with
    | none => Except.error (FailCause.invalidPublicKey t.tokenMint)
    | some mint =>
      match accountOf (getAssociatedTokenAddress mint pk) with
      | none => Except.error (FailCause.tokenAccountMissing t.tokenMint)
      | some avail =>
        match parseBigInt t.amount with
        | none => Except.error (FailCause.invalidAmount t.amount)
        | some req =>
          if (avail : Int) < req then
            Except.error (FailCause.insufficientTokenBalance req avail)
          else validateTokenBalances accountOf pk ts

/-- Embedding of `calculateCCIPFees`: fixed base fee plus a variable fee
proportional to the first token amount (`0.002 + amount * 0.0001` SOL;
NaN amounts lie outside the finite-value idealization). -/
def calculateCCIPFees (config : CCIPMessageConfigE) : ℚ × Int :=
  let amountStr := match config.tokenAmounts with
    | [] => "0"
    | t :: _ => t.amount
  let tokenAmount := (parseFloatQ amountStr).getD 0
  let totalFeeInSol := 2 / 1000 + tokenAmount * (1 / 10000)
  (totalFeeInSol, ⌊totalFeeInSol * 1000000000⌋)

/-- Outcome of `connection.getTransaction` as seen by `extractMessageId`:
the fetch may throw, the transaction or its logs may be absent, or the log
lines are available. -/
inductive FetchLogs where
  | fetchError
  | noLogs
  | logs (ls : List String)
deriving DecidableEq

/-- Characters accepted by the `[0-9a-fA-Fx]+` token of the message-id
pattern. -/
def isHexXCh (c : Char) : Bool :=
  isDigitCh c || (decide (97 ≤ c.toNat) && decide (c.toNat ≤ 102))
    || (decide (65 ≤ c.toNat) && decide (c.toNat ≤ 70)) || c == 'x'

/-- Attempt the regex `messageId:\s*([0-9a-fA-Fx]+)` at the head of `cs`,
returning the capture. -/
def matchIdAt (cs : List Char) : Option (List Char) :=
  if strStartsWithL "messageId:".data cs then
    let rest := (cs.drop 10).dropWhile wsChar
    let tok := rest.takeWhile isHexXCh
    if tok = [] then none else some tok
  else none

/-- Scan for the first position where the message-id pattern matches
(the regex engine resumes scanning after a failed attempt). -/
def scanForId : List Char → Option (List Char)
  | [] => none
  | c :: cs =>
    match matchIdAt (c :: cs) with
    | some tok => some tok
    | none => scanForId cs

/-- Model of `log.match(/messageId:\s*([0-9a-fA-Fx]+)/)`, capture group 1. -/
def matchMessageId (log : String) : Option String :=
  (scanForId log.data).map String.mk

/-- The log-scanning loop of `extractMessageId`: the first log line containing
the `CCIPMessageSent` tag whose message-id pattern matches wins; a tagged line
without a parsable id is skipped and the scan continues. -/
def scanLogs : List String → Option String
  | [] => none
  | l :: ls =>
    if strContains l "CCIPMessageSent" then
      match matchMessageId l with
      | some m => some m
      | none => scanLogs ls
    else scanLogs ls

/-- Embedding of `generateMessageId`: `0x` followed by the first 64 characters
of the transaction signature. -/
def generateMessageId (signature : String) : String :=
  "0x" ++ strTake signature 64

/-- Embedding of `extractMessageId`: fetch the transaction logs; a fetch
failure, absent logs, or no matching log line all fall back to the
deterministic `generateMessageId`. -/
def extractMessageId (fetch : FetchLogs) (signature : String) : String :=
  match fetch with
  | FetchLogs.fetchError => generateMessageId signature
  | FetchLogs.noLogs => generateMessageId signature
  | FetchLogs.logs ls =>
    match scanLogs ls with
    | some m => m
    | none => generateMessageId signature

/-- External collaborators of one `executeRealCCIPTransfer` call: the wallet,
the token-account ledger, the native balance, the signer and the network. -/
structure World where
  walletPublicKey : Option Addr
  accountOf : Addr → Option Nat
  nativeLamports : Nat
  blockhash : String
  signResult : Except String Unit
  sendResult : Except String String
  confirmOk : Bool
  fetchLogs : FetchLogs

/-- External calls the orchestrator can make, in order. -/
inductive Event where
  | validateTokens
  | calcFees
  | buildTransaction
  | requestSignature
  | sendRawTransaction
  | confirmTransaction
  | extractMessageIdCall
deriving DecidableEq

/-- Errors surfaced by `executeRealCCIPTransfer`: the wallet-not-connected
throw happens outside the try block; everything inside is re-thrown wrapped
as `CCIP transfer failed: ...`, the cause recording which step threw. -/
inductive ExecError where
  | walletNotConnected
  | transferFailed (cause : FailCause)
deriving DecidableEq

/-- Embedding of `CCIPTransferResult`. -/
structure TransferResultE where
  signature : String
  messageId : String
  explorerUrl : String
  ccipExplorerUrl : String
deriving DecidableEq

/-- Embedding of `executeRealCCIPTransfer` over a `World`, returning the
result and the ordered trace of external calls: wallet check, token balance
validation, fee calculation, transaction build (which fetches the blockhash
and checks token accounts), signature request, submission, confirmation and
message-id extraction.  The native-SOL balance is never consulted. -/
def executeRealCCIPTransfer (w : World) (config : CCIPMessageConfigE) (computeUnits : Nat) :
    Except ExecError TransferResultE × List Event :=
  match w.walletPublicKey with
  | none => (Except.error ExecError.walletNotConnected, [])
  | some pk =>
    match getCCIPSVMConfig ChainId.SOLANA_DEVNET with
    | Except.error e => (Except.error (ExecError.transferFailed (FailCause.invalidPublicKey e)), [])
    | Except.ok svmConfig =>
      match validateTokenBalances w.accountOf pk config.tokenAmounts with
      | Except.error c =>
        (Except.error (ExecError.transferFailed c), [Event.validateTokens])
      | Except.ok _ =>
        let _fee := calculateCCIPFees config
        match buildCCIPTransaction w.accountOf pk svmConfig config computeUnits with
        | Except.error e =>
          (Except.error (ExecError.transferFailed (FailCause.invalidPublicKey e)),
            [Event.validateTokens, Event.calcFees, Event.buildTransaction])
        | Except.ok _tx =>
          match w.signResult with
          | Except.error m =>
            (Except.error (ExecError.transferFailed (FailCause.signatureRejected m)),
              [Event.validateTokens, Event.calcFees, Event.buildTransaction,
                Event.requestSignature])
          | Except.ok _ =>
            match w.sendResult with
            | Except.error m =>
              (Except.error (ExecError.transferFailed (FailCause.sendFailed m)),
                [Event.validateTokens, Event.calcFees, Event.buildTransaction,
                  Event.requestSignature, Event.sendRawTransaction])
            | Except.ok sig =>
              if w.confirmOk then
                (Except.ok
                  { signature := sig
                    messageId := extractMessageId w.fetchLogs sig
                    explorerUrl := "https://explorer.solana.com/tx/" ++ sig ++ "?cluster=devnet"
                    ccipExplorerUrl :=
                      "https://ccip.chain.link/msg/" ++ extractMessageId w.fetchLogs sig },
                  [Event.validateTokens, Event.calcFees, Event.buildTransaction,
                    Event.requestSignature, Event.sendRawTransaction, Event.confirmTransaction,
                    Event.extractMessageIdCall])
              else
                (Except.error (ExecError.transferFailed FailCause.confirmFailed),
                  [Event.validateTokens, Event.calcFees, Event.buildTransaction,
                    Event.requestSignature, Event.sendRawTransaction, Event.confirmTransaction])

/-! ### Embedding of the transfer-form handler (`handleTransfer`) -/

/-- Form and wallet state read by `handleTransfer`.  `gasLimit` holds the
already-parsed `Number.parseInt(gasLimit) || 0` value. -/
structure UIState where
  connected : Bool
  publicKey : Option Addr
  signTransactionAvailable : Bool
  receiverAddress : String
  tokenAmount : String
  feeToken : String
  gasLimit : Int
  allowOutOfOrder : Bool
  messageData : String
  addressError : Option String
  solBalance : Option ℚ
  destinationChain : ChainId

/-- `CCIP_CONFIG.minSolRequired` (0.005 SOL). -/
def minSolRequired : ℚ := 5 / 1000

/-- `CCIP_CONFIG.computeUnits`. -/
def ccipComputeUnits : Nat := 1400000

/-- The message configuration `handleTransfer` assembles: the BnM mint string
(`config.bnmTokenMint.toString()`), the raw amount from `toRawTokenAmount`
with 9 decimals, and the selector rendered with `toString`. -/
def messageConfigOf (ui : UIState) : CCIPMessageConfigE :=
  { destinationChain := ui.destinationChain
    destinationChainSelector := natRepr (CHAIN_SELECTORS ui.destinationChain)
    evmReceiverAddress := ui.receiverAddress
    tokenAmounts :=
      [{ tokenMint := "3PjyGzj1jGVgHSKS4VR1Hr1memm63PmN8L9rtPDKwzZ6"
         amount := toRawTokenAmount ui.tokenAmount 9 }]
    feeToken := ui.feeToken
    messageData := ui.messageData
    extraArgs := { gasLimit := ui.gasLimit, allowOutOfOrderExecution := ui.allowOutOfOrder } }

/-- Outcomes `handleTransfer` surfaces to the user. -/
inductive UIOutcome where
  | toastWalletNotConnected
  | toastInvalidInput
  | toastInsufficientSol
  | transferInitiated (result : TransferResultE)
  | toastTransferFailed (e : ExecError)
deriving DecidableEq

/-- The transfer execution tail of `handleTransfer`. -/
def runTransfer (ui : UIState) (w : World) : UIOutcome × List Event :=
  match executeRealCCIPTransfer { w with walletPublicKey := ui.publicKey }
      (messageConfigOf ui) ccipComputeUnits with
  | (Except.ok r, evs) => (UIOutcome.transferInitiated r, evs)
  | (Except.error e, evs) => (UIOutcome.toastTransferFailed e, evs)

/-- Embedding of `handleTransfer` from the transfer form: connection guard,
input guard, then the native-balance guard (`solBalance !== null &&
solBalance < minSolRequired`), and only then the real transfer. -/
def handleTransfer (ui : UIState) (w : World) : UIOutcome × List Event :=
  if ¬(ui.connected = true ∧ ui.publicKey.isSome = true
      ∧ ui.signTransactionAvailable = true) then
    (UIOutcome.toastWalletNotConnected, [])
  else if ui.receiverAddress = "" ∨ ui.tokenAmount = "" ∨ ui.addressError.isSome = true then
    (UIOutcome.toastInvalidInput, [])
  else
    match ui.solBalance with
    | some b =>
      if b < minSolRequired then (UIOutcome.toastInsufficientSol, [])
      else runTransfer ui w
    | none => runTransfer ui w

/-! ### Characterization lemmas for the transaction builder and orchestrator -/

/-- The mint key of a token entry (defined when the mint string parses). -/
def mintOf (t : TokenAmount) : Addr := (parsePublicKey t.tokenMint).getD pubkeyDefault

theorem buildSendKeys_ok (pk : Addr) (ts : List TokenAmount)
    (h : ∀ t ∈ ts, (parsePublicKey t.tokenMint).isSome = true) :
    buildSendKeys pk ts = Except.ok (ts.flatMap fun t =>
      [{ pubkey := getAssociatedTokenAddress (mintOf t) pk, isSigner := false, isWritable := true },
       { pubkey := mintOf t, isSigner := false, isWritable := false }]) := by
  induction ts with
  | nil => rfl
  | cons t ts ih =>
    have ht : (parsePublicKey t.tokenMint).isSome = true := h t (List.mem_cons_self t ts)
    obtain ⟨mint, hmint⟩ := Option.isSome_iff_exists.mp ht
    have hmintOf : mintOf t = mint := by rw [mintOf, hmint]; rfl
    rw [buildSendKeys, hmint, ih fun u hu => h u (List.mem_cons_of_mem t hu)]
    simp [hmintOf, Except.map]

theorem buildATAList_ok (accountOf : Addr → Option Nat) (pk : Addr) (ts : List TokenAmount)
    (h : ∀ t ∈ ts, (parsePublicKey t.tokenMint).isSome = true) :
    buildATAList accountOf pk ts = Except.ok
      ((ts.filter fun t =>
          (accountOf (getAssociatedTokenAddress (mintOf t) pk)).isNone).map fun t =>
        Instruction.createATA pk (getAssociatedTokenAddress (mintOf t) pk) pk (mintOf t)
          TOKEN_2022_PROGRAM_ID) := by
  induction ts with
  | nil => rfl
  | cons t ts ih =>
    have ht : (parsePublicKey t.tokenMint).isSome = true := h t (List.mem_cons_self t ts)
    obtain ⟨mint, hmint⟩ := Option.isSome_iff_exists.mp ht
    have hmintOf : mintOf t = mint := by rw [mintOf, hmint]; rfl
    rw [buildATAList, hmint, ih fun u hu => h u (List.mem_cons_of_mem t hu)]
    cases hacct : accountOf (getAssociatedTokenAddress mint pk) with
    | none => simp [List.filter_cons, hmintOf, hacct, Except.map]
    | some amt => simp [List.filter_cons, hmintOf, hacct, Except.map]

/-- Instruction-list characterization of the transaction builder: compute
budget first, then one create-account instruction per missing token account
in request order, then the single CCIP send instruction with its fixed key
layout. -/
theorem buildCCIPTransaction_ok (accountOf : Addr → Option Nat) (pk : Addr) (cfg : SVMConfigE)
    (config : CCIPMessageConfigE) (cu : Nat)
    (h : ∀ t ∈ config.tokenAmounts, (parsePublicKey t.tokenMint).isSome = true) :
    buildCCIPTransaction accountOf pk cfg config cu = Except.ok
      (Instruction.computeBudget cu ::
        (((config.tokenAmounts.filter fun t =>
            (accountOf (getAssociatedTokenAddress (mintOf t) pk)).isNone).map fun t =>
          Instruction.createATA pk (getAssociatedTokenAddress (mintOf t) pk) pk (mintOf t)
            TOKEN_2022_PROGRAM_ID)
        ++ [Instruction.ccipSend
              ({ pubkey := pk, isSigner := true, isWritable := true }
                :: { pubkey := cfg.routerProgramId, isSigner := false, isWritable := false }
                :: { pubkey := cfg.feeQuoterProgramId, isSigner := false, isWritable := false }
                :: { pubkey := systemProgramId, isSigner := false, isWritable := false }
                :: (config.tokenAmounts.flatMap fun t =>
                  [{ pubkey := getAssociatedTokenAddress (mintOf t) pk, isSigner := false,
                     isWritable := true },
                   { pubkey := mintOf t, isSigner := false, isWritable := false }]))
              cfg.routerProgramId (encodeCCIPMessage config)])) := by
  rw [buildCCIPTransaction, buildATAList_ok accountOf pk config.tokenAmounts h,
    buildCCIPSendInstruction, buildSendKeys_ok pk config.tokenAmounts h]
  rfl

/-- A token entry that passes validation: its mint parses, its associated
token account exists, and the balance covers the parsed required amount. -/
def tokenOk (accountOf : Addr → Option Nat) (pk : Addr) (t : TokenAmount) : Prop :=
  ∃ mint avail req, parsePublicKey t.tokenMint = some mint
    ∧ accountOf (getAssociatedTokenAddress mint pk) = some avail
    ∧ parseBigInt t.amount = some req ∧ ¬((avail : Int) < req)

theorem validateTokenBalances_ok (accountOf : Addr → Option Nat) (pk : Addr)
    (ts : List TokenAmount) (h : ∀ t ∈ ts, tokenOk accountOf pk t) :
    validateTokenBalances accountOf pk ts = Except.ok () := by
  induction ts with
  | nil => rfl
  | cons t ts ih =>
    obtain ⟨mint, avail, req, hmint, hacct, hreq, hge⟩ := h t (List.mem_cons_self t ts)
    rw [validateTokenBalances]
    simp only [hmint, hacct, hreq, if_neg hge]
    exact ih fun u hu => h u (List.mem_cons_of_mem t hu)

theorem validateTokenBalances_append (accountOf : Addr → Option Nat) (pk : Addr)
    (pre rest : List TokenAmount) (h : ∀ t ∈ pre, tokenOk accountOf pk t) :
    validateTokenBalances accountOf pk (pre ++ rest)
      = validateTokenBalances accountOf pk rest := by
  induction pre with
  | nil => rfl
  | cons t ts ih =>
    obtain ⟨mint, avail, req, hmint, hacct, hreq, hge⟩ := h t (List.mem_cons_self t ts)
    rw [List.cons_append, validateTokenBalances]
    simp only [hmint, hacct, hreq, if_neg hge]
    exact ih fun u hu => h u (List.mem_cons_of_mem t hu)

/-! ### Orchestrator trace lemmas -/

theorem executeRealCCIPTransfer_success (w : World) (config : CCIPMessageConfigE) (cu : Nat)
    (pk : Addr) (sig : String)
    (hpk : w.walletPublicKey = some pk)
    (hval : validateTokenBalances w.accountOf pk config.tokenAmounts = Except.ok ())
    (hbuild : ∃ tx, buildCCIPTransaction w.accountOf pk solanaDevnetConfig config cu
      = Except.ok tx)
    (hsig : w.signResult = Except.ok ())
    (hsend : w.sendResult = Except.ok sig)
    (hconf : w.confirmOk = true) :
    executeRealCCIPTransfer w config cu =
      (Except.ok
        { signature := sig
          messageId := extractMessageId w.fetchLogs sig
          explorerUrl := "https://explorer.solana.com/tx/" ++ sig ++ "?cluster=devnet"
          ccipExplorerUrl := "https://ccip.chain.link/msg/" ++ extractMessageId w.fetchLogs sig },
        [Event.validateTokens, Event.calcFees, Event.buildTransaction, Event.requestSignature,
          Event.sendRawTransaction, Event.confirmTransaction, Event.extractMessageIdCall]) := by
  obtain ⟨tx, htx⟩ := hbuild
  rw [executeRealCCIPTransfer, hpk]
  have hcfg : getCCIPSVMConfig ChainId.SOLANA_DEVNET = Except.ok solanaDevnetConfig := rfl
  rw [hcfg]
  simp only [hval, htx, hsig, hsend, hconf, if_true]

theorem executeRealCCIPTransfer_signReject (w : World) (config : CCIPMessageConfigE) (cu : Nat)
    (pk : Addr) (m : String)
    (hpk : w.walletPublicKey = some pk)
    (hval : validateTokenBalances w.accountOf pk config.tokenAmounts = Except.ok ())
    (hbuild : ∃ tx, buildCCIPTransaction w.accountOf pk solanaDevnetConfig config cu
      = Except.ok tx)
    (hsig : w.signResult = Except.error m) :
    executeRealCCIPTransfer w config cu =
      (Except.error (ExecError.transferFailed (FailCause.signatureRejected m)),
        [Event.validateTokens, Event.calcFees, Event.buildTransaction,
          Event.requestSignature]) := by
  obtain ⟨tx, htx⟩ := hbuild
  rw [executeRealCCIPTransfer, hpk]
  have hcfg : getCCIPSVMConfig ChainId.SOLANA_DEVNET = Except.ok solanaDevnetConfig := rfl
  rw [hcfg]
  simp only [hval, htx, hsig]

theorem validateTokenBalances_missing (accountOf : Addr → Option Nat) (pk : Addr)
    (t : TokenAmount) (suf : List TokenAmount) (mint : Addr)
    (hmint : parsePublicKey t.tokenMint = some mint)
    (hacct : accountOf (getAssociatedTokenAddress mint pk) = none) :
    validateTokenBalances accountOf pk (t :: suf)
      = Except.error (FailCause.tokenAccountMissing t.tokenMint) := by
  rw [validateTokenBalances]
  simp only [hmint, hacct]

theorem validateTokenBalances_insufficient (accountOf : Addr → Option Nat) (pk : Addr)
    (t : TokenAmount) (suf : List TokenAmount) (mint : Addr) (avail : Nat) (req : Int)
    (hmint : parsePublicKey t.tokenMint = some mint)
    (hacct : accountOf (getAssociatedTokenAddress mint pk) = some avail)
    (hreq : parseBigInt t.amount = some req)
    (hlt : (avail : Int) < req) :
    validateTokenBalances accountOf pk (t :: suf)
      = Except.error (FailCause.insufficientTokenBalance req avail) := by
  rw [validateTokenBalances]
  simp only [hmint, hacct, hreq, if_pos hlt]

/-! ### Concrete instances for witnesses and counterexamples -/

/-- The transfer request the form assembles at its default state (Ethereum
Sepolia destination, the default receiver, 0.01 BnM = 10000000 raw units,
native fee token). -/
def exampleTransferConfig : CCIPMessageConfigE :=
  { destinationChain := ChainId.ETHEREUM_SEPOLIA
    destinationChainSelector := "16015286601757825753"
    evmReceiverAddress := "0x9d087fC03ae39b088326b67fA3C788236645b717"
    tokenAmounts :=
      [{ tokenMint := "3PjyGzj1jGVgHSKS4VR1Hr1memm63PmN8L9rtPDKwzZ6", amount := "10000000" }]
    feeToken := "native"
    messageData := ""
    extraArgs := { gasLimit := 0, allowOutOfOrderExecution := true } }

/-- A world whose native balance is zero (insufficient for any fee) but whose
token accounts are funded and whose signer and network cooperate. -/
def zeroNativeWorld : World :=
  { walletPublicKey := some (Addr.key 1)
    accountOf := fun _ => some 1000000000000
    nativeLamports := 0
    blockhash := "9sHcv6xwn9YkB8nxTUGKDwPwNnmqVp5oALxZwgUJGqiz"
    signResult := Except.ok ()
    sendResult := Except.ok "5wHu1qwD4kCkvLkyNqTBQTgTBgYsZYhjZAbLtXhdUnkc"
    confirmOk := true
    fetchLogs := FetchLogs.noLogs }

/-- A world whose signer rejects the signature request. -/
def signRejectWorld : World :=
  { walletPublicKey := some (Addr.key 1)
    accountOf := fun _ => some 1000000000000
    nativeLamports := 100000000
    blockhash := "9sHcv6xwn9YkB8nxTUGKDwPwNnmqVp5oALxZwgUJGqiz"
    signResult := Except.error "User rejected the request"
    sendResult := Except.ok "5wHu1qwD4kCkvLkyNqTBQTgTBgYsZYhjZAbLtXhdUnkc"
    confirmOk := true
    fetchLogs := FetchLogs.noLogs }

/-! ### Claim theorems -/

set_option maxRecDepth 10000 in
/-- C1: the message-body encoder does NOT produce the router program's binary
wire format: `encodeCCIPMessage` is `Buffer.from(JSON.stringify(data))`, so on
the default transfer request its output is exactly the UTF-8 bytes of this
JSON text — an ad hoc textual encoding, contradicting the specified contract
(the code's own comments mark the real encoding as not implemented). -/
theorem encodeCCIPMessage_is_json_text :
    encodeCCIPMessage exampleTransferConfig
      = "\x7b\x22destinationChainSelector\x22:\x2216015286601757825753\x22,\x22receiver\x22:\x220x9d087fC03ae39b088326b67fA3C788236645b717\x22,\x22tokenAmounts\x22:[\x7b\x22tokenMint\x22:\x223PjyGzj1jGVgHSKS4VR1Hr1memm63PmN8L9rtPDKwzZ6\x22,\x22amount\x22:\x2210000000\x22\x7d],\x22feeToken\x22:\x22native\x22,\x22messageData\x22:\x22\x22,\x22extraArgs\x22:\x7b\x22gasLimit\x22:0,\x22allowOutOfOrderExecution\x22:true\x7d\x7d" := by
  decide

/-- C3: for every account, chain descriptor, request and compute budget (all
token mints parsing), the built instruction list is the compute-budget
instruction first, then one create-associated-token-account instruction per
token whose account is missing (in request order, omitted otherwise), then
exactly one CCIP send instruction whose keys are sender, router, fee-quoter,
system program, then each token's associated account followed by its mint. -/
theorem buildCCIPTransaction_instruction_order (accountOf : Addr → Option Nat) (pk : Addr)
    (cfg : SVMConfigE) (config : CCIPMessageConfigE) (cu : Nat)
    (h : ∀ t ∈ config.tokenAmounts, (parsePublicKey t.tokenMint).isSome = true) :
    buildCCIPTransaction accountOf pk cfg config cu = Except.ok
      (Instruction.computeBudget cu ::
        (((config.tokenAmounts.filter fun t =>
            (accountOf (getAssociatedTokenAddress (mintOf t) pk)).isNone).map fun t =>
          Instruction.createATA pk (getAssociatedTokenAddress (mintOf t) pk) pk (mintOf t)
            TOKEN_2022_PROGRAM_ID)
        ++ [Instruction.ccipSend
              ({ pubkey := pk, isSigner := true, isWritable := true }
                :: { pubkey := cfg.routerProgramId, isSigner := false, isWritable := false }
                :: { pubkey := cfg.feeQuoterProgramId, isSigner := false, isWritable := false }
                :: { pubkey := systemProgramId, isSigner := false, isWritable := false }
                :: (config.tokenAmounts.flatMap fun t =>
                  [{ pubkey := getAssociatedTokenAddress (mintOf t) pk, isSigner := false,
                     isWritable := true },
                   { pubkey := mintOf t, isSigner := false, isWritable := false }]))
              cfg.routerProgramId (encodeCCIPMessage config)])) :=
  buildCCIPTransaction_ok accountOf pk cfg config cu h

/-- Witness for C3 at a concrete account, configuration and request whose one
token account is missing. -/
theorem buildCCIPTransaction_instruction_order_witness :
    buildCCIPTransaction (fun _ => none) (Addr.key 1) solanaDevnetConfig
      exampleTransferConfig 1400000 = Except.ok
      (Instruction.computeBudget 1400000 ::
        (((exampleTransferConfig.tokenAmounts.filter fun t =>
            (((fun (_ : Addr) => (none : Option Nat))
              (getAssociatedTokenAddress (mintOf t) (Addr.key 1))).isNone)).map fun t =>
          Instruction.createATA (Addr.key 1)
            (getAssociatedTokenAddress (mintOf t) (Addr.key 1)) (Addr.key 1) (mintOf t)
            TOKEN_2022_PROGRAM_ID)
        ++ [Instruction.ccipSend
              ({ pubkey := Addr.key 1, isSigner := true, isWritable := true }
                :: { pubkey := solanaDevnetConfig.routerProgramId, isSigner := false,
                     isWritable := false }
                :: { pubkey := solanaDevnetConfig.feeQuoterProgramId, isSigner := false,
                     isWritable := false }
                :: { pubkey := systemProgramId, isSigner := false, isWritable := false }
                :: (exampleTransferConfig.tokenAmounts.flatMap fun t =>
                  [{ pubkey := getAssociatedTokenAddress (mintOf t) (Addr.key 1),
                     isSigner := false, isWritable := true },
                   { pubkey := mintOf t, isSigner := false, isWritable := false }]))
              solanaDevnetConfig.routerProgramId
              (encodeCCIPMessage exampleTransferConfig)])) :=
  buildCCIPTransaction_instruction_order (fun _ => none) (Addr.key 1) solanaDevnetConfig
    exampleTransferConfig 1400000 (by decide)

/-- C4: token balance validation fails with the distinct missing-account
error carrying the mint when the associated token account does not exist,
fails with the distinct insufficient-balance error carrying the required and
available amounts when the account exists but is short, and succeeds when
every listed token account exists with sufficient balance. -/
theorem validateTokenBalances_distinct_errors (accountOf : Addr → Option Nat) (pk : Addr)
    (pre suf : List TokenAmount) (t : TokenAmount) (mint : Addr)
    (hpre : ∀ u ∈ pre, tokenOk accountOf pk u)
    (hmint : parsePublicKey t.tokenMint = some mint) :
    (accountOf (getAssociatedTokenAddress mint pk) = none →
      validateTokenBalances accountOf pk (pre ++ t :: suf)
        = Except.error (FailCause.tokenAccountMissing t.tokenMint))
    ∧ (∀ avail req, accountOf (getAssociatedTokenAddress mint pk) = some avail →
        parseBigInt t.amount = some req → (avail : Int) < req →
        validateTokenBalances accountOf pk (pre ++ t :: suf)
          = Except.error (FailCause.insufficientTokenBalance req avail))
    ∧ (∀ ts, (∀ u ∈ ts, tokenOk accountOf pk u) →
        validateTokenBalances accountOf pk ts = Except.ok ()) := by
  refine ⟨?_, ?_, ?_⟩
  · intro hacct
    rw [validateTokenBalances_append accountOf pk pre _ hpre]
    exact validateTokenBalances_missing accountOf pk t suf mint hmint hacct
  · intro avail req hacct hreq hlt
    rw [validateTokenBalances_append accountOf pk pre _ hpre]
    exact validateTokenBalances_insufficient accountOf pk t suf mint avail req hmint hacct
      hreq hlt
  · exact fun ts hts => validateTokenBalances_ok accountOf pk ts hts

/-- Witness for C4: with no token accounts on ledger, validating the default
request fails with the missing-account error carrying the BnM mint. -/
theorem validateTokenBalances_distinct_errors_witness :
    validateTokenBalances (fun _ => none) (Addr.key 1)
      [{ tokenMint := "3PjyGzj1jGVgHSKS4VR1Hr1memm63PmN8L9rtPDKwzZ6", amount := "10000000" }]
      = Except.error
        (FailCause.tokenAccountMissing "3PjyGzj1jGVgHSKS4VR1Hr1memm63PmN8L9rtPDKwzZ6") := by
  have hs : (parsePublicKey "3PjyGzj1jGVgHSKS4VR1Hr1memm63PmN8L9rtPDKwzZ6").isSome = true := by
    decide
  have h := (validateTokenBalances_distinct_errors (fun _ => none) (Addr.key 1) [] []
    { tokenMint := "3PjyGzj1jGVgHSKS4VR1Hr1memm63PmN8L9rtPDKwzZ6", amount := "10000000" }
    ((parsePublicKey "3PjyGzj1jGVgHSKS4VR1Hr1memm63PmN8L9rtPDKwzZ6").get hs)
    (by intro u hu; cases hu) (Option.some_get hs).symm).1 rfl
  simpa using h

/-- C9 counterexample: the Ethereum Sepolia routing selector fits in 64 bits,
refuting the claim that every selector's value exceeds the 64-bit range. -/
theorem chain_selector_within_64bit :
    ¬ (2 ^ 64 ≤ CHAIN_SELECTORS ChainId.ETHEREUM_SEPOLIA) := by decide

/-- C9 (amended): every supported chain has exactly one selector (the mapping
is a total function); every selector is non-zero, exceeds the 53-bit safe
integer range of a JS number (whence `BigInt`), and fits in 64 bits (hence in
the 128-bit range); and the selectors are pairwise distinct. -/
theorem chain_selectors_invariant :
    (∀ c : ChainId, 0 < CHAIN_SELECTORS c ∧ 2 ^ 53 < CHAIN_SELECTORS c
      ∧ CHAIN_SELECTORS c < 2 ^ 64)
    ∧ (∀ c d : ChainId, CHAIN_SELECTORS c = CHAIN_SELECTORS d → c = d) := by
  constructor
  · intro c
    cases c <;> exact ⟨by decide, by decide, by decide⟩
  · intro c d h
    cases c <;> cases d <;> first | rfl | (exfalso; revert h; decide)

/-- Witness for C9 at concrete chains: selectors are distinct and in range. -/
theorem chain_selectors_invariant_witness :
    (0 < CHAIN_SELECTORS ChainId.ETHEREUM_SEPOLIA
      ∧ 2 ^ 53 < CHAIN_SELECTORS ChainId.ETHEREUM_SEPOLIA
      ∧ CHAIN_SELECTORS ChainId.ETHEREUM_SEPOLIA < 2 ^ 64)
    ∧ ChainId.BASE_SEPOLIA = ChainId.BASE_SEPOLIA :=
  ⟨chain_selectors_invariant.1 ChainId.ETHEREUM_SEPOLIA,
    chain_selectors_invariant.2 ChainId.BASE_SEPOLIA ChainId.BASE_SEPOLIA (by decide)⟩

/-- C2 counterexample: `executeRealCCIPTransfer` itself never checks the
native balance — on a world whose native balance is zero (insufficient for
the 0.005 SOL minimum) it still invokes the Transaction Builder and the
signer and completes, instead of failing with an insufficient-native-funds
error. -/
theorem executeReal_ignores_native_balance :
    (zeroNativeWorld.nativeLamports : ℚ) / 1000000000 < minSolRequired
    ∧ (executeRealCCIPTransfer zeroNativeWorld exampleTransferConfig 1400000).1
        = Except.ok
          { signature := "5wHu1qwD4kCkvLkyNqTBQTgTBgYsZYhjZAbLtXhdUnkc"
            messageId := "0x5wHu1qwD4kCkvLkyNqTBQTgTBgYsZYhjZAbLtXhdUnkc"
            explorerUrl :=
              "https://explorer.solana.com/tx/5wHu1qwD4kCkvLkyNqTBQTgTBgYsZYhjZAbLtXhdUnkc?cluster=devnet"
            ccipExplorerUrl :=
              "https://ccip.chain.link/msg/0x5wHu1qwD4kCkvLkyNqTBQTgTBgYsZYhjZAbLtXhdUnkc" }
    ∧ Event.buildTransaction
        ∈ (executeRealCCIPTransfer zeroNativeWorld exampleTransferConfig 1400000).2
    ∧ Event.requestSignature
        ∈ (executeRealCCIPTransfer zeroNativeWorld exampleTransferConfig 1400000).2 := by
  have hrun := executeRealCCIPTransfer_success zeroNativeWorld exampleTransferConfig 1400000
    (Addr.key 1) "5wHu1qwD4kCkvLkyNqTBQTgTBgYsZYhjZAbLtXhdUnkc" rfl (by decide)
    ⟨_, buildCCIPTransaction_ok zeroNativeWorld.accountOf (Addr.key 1) solanaDevnetConfig
        exampleTransferConfig 1400000 (by decide)⟩ rfl rfl rfl
  refine ⟨by norm_num [zeroNativeWorld, minSolRequired], ?_, ?_, ?_⟩ <;> rw [hrun] <;> decide

/-- C2 (amended): the insufficient-native-funds check lives in the caller
`handleTransfer`, not in `executeRealCCIPTransfer`: when the fetched balance
is known and below the minimum, the flow halts with the insufficient-SOL
notice, never invoking `executeRealCCIPTransfer` — hence neither the
Transaction Builder nor the signer (the trace of external calls is empty). -/
theorem handleTransfer_insufficient_native_halts (ui : UIState) (w : World) (b : ℚ)
    (hconn : ui.connected = true) (hpk : ui.publicKey.isSome = true)
    (hsign : ui.signTransactionAvailable = true)
    (hrecv : ui.receiverAddress ≠ "") (hamt : ui.tokenAmount ≠ "")
    (herr : ui.addressError = none)
    (hbal : ui.solBalance = some b) (hlt : b < minSolRequired) :
    handleTransfer ui w = (UIOutcome.toastInsufficientSol, [])
    ∧ Event.buildTransaction ∉ (handleTransfer ui w).2
    ∧ Event.requestSignature ∉ (handleTransfer ui w).2 := by
  have heq : handleTransfer ui w = (UIOutcome.toastInsufficientSol, []) := by
    rw [handleTransfer]
    rw [if_neg (by simp [hconn, hpk, hsign])]
    rw [if_neg (by simp [hrecv, hamt, herr])]
    rw [hbal]
    simp only [if_pos hlt]
  exact ⟨heq, by rw [heq]; simp, by rw [heq]; simp⟩

/-- The default form state with a known balance of 0.001 SOL, below the
0.005 SOL minimum. -/
def lowBalanceUI : UIState :=
  { connected := true
    publicKey := some (Addr.key 1)
    signTransactionAvailable := true
    receiverAddress := "0x9d087fC03ae39b088326b67fA3C788236645b717"
    tokenAmount := "0.01"
    feeToken := "native"
    gasLimit := 0
    allowOutOfOrder := true
    messageData := ""
    addressError := none
    solBalance := some (1 / 1000)
    destinationChain := ChainId.ETHEREUM_SEPOLIA }

/-- Witness for the amended C2 at a concrete low-balance form state. -/
theorem handleTransfer_insufficient_native_halts_witness :
    handleTransfer lowBalanceUI zeroNativeWorld = (UIOutcome.toastInsufficientSol, []) :=
  (handleTransfer_insufficient_native_halts lowBalanceUI zeroNativeWorld (1 / 1000)
    rfl rfl rfl (by decide) (by decide) rfl rfl (by norm_num [minSolRequired])).1

/-- C7: when the signer rejects (after validation and build succeed), the
execute operation terminates in the signature-rejected failure, and no
submission to the network ever happens. -/
theorem executeReal_sign_reject_no_submit (w : World) (config : CCIPMessageConfigE) (cu : Nat)
    (pk : Addr) (m : String)
    (hpk : w.walletPublicKey = some pk)
    (hval : validateTokenBalances w.accountOf pk config.tokenAmounts = Except.ok ())
    (hbuild : ∃ tx, buildCCIPTransaction w.accountOf pk solanaDevnetConfig config cu
      = Except.ok tx)
    (hsig : w.signResult = Except.error m) :
    (executeRealCCIPTransfer w config cu).1
      = Except.error (ExecError.transferFailed (FailCause.signatureRejected m))
    ∧ Event.sendRawTransaction ∉ (executeRealCCIPTransfer w config cu).2 := by
  have hrun := executeRealCCIPTransfer_signReject w config cu pk m hpk hval hbuild hsig
  exact ⟨by rw [hrun], by rw [hrun]; simp⟩

/-- Witness for C7 on a concrete rejecting world. -/
theorem executeReal_sign_reject_no_submit_witness :
    (executeRealCCIPTransfer signRejectWorld exampleTransferConfig 1400000).1
      = Except.error
        (ExecError.transferFailed (FailCause.signatureRejected "User rejected the request"))
    ∧ Event.sendRawTransaction
        ∉ (executeRealCCIPTransfer signRejectWorld exampleTransferConfig 1400000).2 :=
  executeReal_sign_reject_no_submit signRejectWorld exampleTransferConfig 1400000
    (Addr.key 1) "User rejected the request" rfl (by decide)
    ⟨_, buildCCIPTransaction_ok signRejectWorld.accountOf (Addr.key 1) solanaDevnetConfig
        exampleTransferConfig 1400000 (by decide)⟩ rfl

theorem scanLogs_none (ls : List String)
    (h : ∀ l ∈ ls, strContains l "CCIPMessageSent" = false) :
    scanLogs ls = none := by
  induction ls with
  | nil => rfl
  | cons l ls ih =>
    rw [scanLogs, h l (List.mem_cons_self l ls)]
    simp only [Bool.false_eq_true, if_false]
    exact ih fun u hu => h u (List.mem_cons_of_mem l hu)

/-- C8: when the fetched logs contain no line with the `CCIPMessageSent` tag
(or the fetch fails, or the logs are absent), message-id extraction never
fails: it returns `0x` plus the first 64 signature characters — a pure
deterministic function of the transaction id alone, identical across
repeated calls and independent of the log outcome. -/
theorem extractMessageId_fallback_deterministic (fetch : FetchLogs) (sig : String)
    (h : ∀ ls, fetch = FetchLogs.logs ls →
      ∀ l ∈ ls, strContains l "CCIPMessageSent" = false) :
    extractMessageId fetch sig = generateMessageId sig
    ∧ generateMessageId sig = "0x" ++ strTake sig 64
    ∧ (∀ fetch2, (∀ ls, fetch2 = FetchLogs.logs ls →
        ∀ l ∈ ls, strContains l "CCIPMessageSent" = false) →
        extractMessageId fetch sig = extractMessageId fetch2 sig) := by
  have key : ∀ fh, (∀ ls, fh = FetchLogs.logs ls →
      ∀ l ∈ ls, strContains l "CCIPMessageSent" = false) →
      extractMessageId fh sig = generateMessageId sig := by
    intro fh hh
    cases fh with
    | fetchError => rfl
    | noLogs => rfl
    | logs ls =>
      rw [extractMessageId, scanLogs_none ls (hh ls rfl)]
  exact ⟨key fetch h, rfl, fun f2 h2 => by rw [key fetch h, key f2 h2]⟩

/-- Witness for C8 on concrete logs without the event tag. -/
theorem extractMessageId_fallback_deterministic_witness :
    extractMessageId
      (FetchLogs.logs ["Program log: Instruction: CcipSend", "Program consumed 12345 units"])
      "5wHu1qwD4kCkvLkyNqTBQTgTBgYsZYhjZAbLtXhdUnkc"
      = "0x5wHu1qwD4kCkvLkyNqTBQTgTBgYsZYhjZAbLtXhdUnkc" := by
  have h := (extractMessageId_fallback_deterministic
    (FetchLogs.logs ["Program log: Instruction: CcipSend", "Program consumed 12345 units"])
    "5wHu1qwD4kCkvLkyNqTBQTgTBgYsZYhjZAbLtXhdUnkc"
    (by
      intro ls hls
      injection hls with h1
      subst h1
      decide)).1
  rw [h]
  decide

/-- C10: `getSVMFeeToken` is total and never throws: absent or empty input,
`native` (case-insensitively) and unrecognized unparsable strings yield the
native-SOL default key; `wrapped-native` and `link` yield the configured
mints; any other string parsing as a public key yields that key —
unrecognized selections silently degrade to native. -/
theorem getSVMFeeToken_total_cases (cfg : SVMConfigE) (s : String) :
    getSVMFeeToken cfg none = pubkeyDefault
    ∧ getSVMFeeToken cfg (some "") = pubkeyDefault
    ∧ (s ≠ "" → strToLower s = "native" → getSVMFeeToken cfg (some s) = pubkeyDefault)
    ∧ (s ≠ "" → strToLower s = "wrapped-native" →
        getSVMFeeToken cfg (some s) = cfg.wrappedNativeMint)
    ∧ (s ≠ "" → strToLower s = "link" → getSVMFeeToken cfg (some s) = cfg.linkTokenMint)
    ∧ (s ≠ "" → strToLower s ≠ "native" → strToLower s ≠ "wrapped-native" →
        strToLower s ≠ "link" →
        ((∀ k, parsePublicKey s = some k → getSVMFeeToken cfg (some s) = k)
          ∧ (parsePublicKey s = none → getSVMFeeToken cfg (some s) = pubkeyDefault))) := by
  refine ⟨rfl, rfl, ?_, ?_, ?_, ?_⟩
  · intro hne hl
    rw [getSVMFeeToken]
    simp [hne, hl]
  · intro hne hl
    rw [getSVMFeeToken]
    simp [hne, hl]
  · intro hne hl
    rw [getSVMFeeToken]
    simp [hne, hl]
  · intro hne h1 h2 h3
    constructor
    · intro k hk
      rw [getSVMFeeToken]
      simp [hne, h1, h2, h3, hk]
    · intro hk
      rw [getSVMFeeToken]
      simp [hne, h1, h2, h3, hk]

/-- Witness for C10 at concrete fee-token selections: upper-case `NATIVE`,
`wrapped-native`, a parseable key (the system program address, the all-zero
key) and an unparsable string. -/
theorem getSVMFeeToken_total_cases_witness :
    getSVMFeeToken solanaDevnetConfig (some "NATIVE") = pubkeyDefault
    ∧ getSVMFeeToken solanaDevnetConfig (some "wrapped-native")
        = solanaDevnetConfig.wrappedNativeMint
    ∧ getSVMFeeToken solanaDevnetConfig (some "11111111111111111111111111111111")
        = Addr.key 0
    ∧ getSVMFeeToken solanaDevnetConfig (some "zzz") = pubkeyDefault := by
  refine ⟨?_, ?_, ?_, ?_⟩
  · exact (getSVMFeeToken_total_cases solanaDevnetConfig "NATIVE").2.2.1 (by decide) (by decide)
  · exact (getSVMFeeToken_total_cases solanaDevnetConfig "wrapped-native").2.2.2.1
      (by decide) (by decide)
  · exact ((getSVMFeeToken_total_cases solanaDevnetConfig
      "11111111111111111111111111111111").2.2.2.2.2 (by decide) (by decide) (by decide)
      (by decide)).1 (Addr.key 0) (by decide)
  · exact ((getSVMFeeToken_total_cases solanaDevnetConfig "zzz").2.2.2.2.2 (by decide)
      (by decide) (by decide) (by decide)).2 (by decide)

/-! ### Concrete parse and print evaluations for C5 and C6 -/

theorem parseFloatQ_p0000001 : parseFloatQ "0.0000001" = some ((1 : ℚ) / 10000000) := by
  show parseFloatL "0.0000001".data = _
  rw [show "0.0000001".data = ['0'] ++ '.' :: ['0', '0', '0', '0', '0', '0', '1'] from rfl,
    parseFloatL_digits_point _ _ (by decide) (by decide) (by decide)]
  rw [show digitsVal ['0'] = 0 from by decide,
    show digitsVal ['0', '0', '0', '0', '0', '0', '1'] = 1 from by decide]
  norm_num

theorem parseFloatQ_100 : parseFloatQ "100" = some ((100 : ℚ)) := by
  show parseFloatL "100".data = _
  rw [show "100".data = ['1', '0', '0'] from rfl,
    parseFloatL_digits _ (by decide) (by decide)]
  rw [show digitsVal ['1', '0', '0'] = 100 from by decide]
  norm_num

theorem parseFloatQ_zeros6 : parseFloatQ "0.000000" = some ((0 : ℚ)) := by
  show parseFloatL "0.000000".data = _
  rw [show "0.000000".data = ['0'] ++ '.' :: ['0', '0', '0', '0', '0', '0'] from rfl,
    parseFloatL_digits_point _ _ (by decide) (by decide) (by decide)]
  rw [show digitsVal ['0'] = 0 from by decide,
    show digitsVal ['0', '0', '0', '0', '0', '0'] = 0 from by decide]
  norm_num

theorem intRepr_100 : intRepr 100 = "100" := by
  rw [intRepr, if_neg (by norm_num)]
  show natRepr (100 : Nat) = "100"
  simp [natRepr, natReprL, natDigitsLE, digitChar]

theorem jsNumToString_zero : jsNumToString 0 = "0" := by
  have h := jsNumToString_decStr 0 0 (Or.inl rfl)
  rw [show (((0 : Nat) : ℚ) / 10 ^ 0) = (0 : ℚ) from by norm_num] at h
  rw [h, decStr]
  simp [natRepr, natReprL]

/-- C5 counterexample: the round trip destroys the seventh fraction digit —
`toRawTokenAmount "0.0000001" 9` is `"100"`, and formatting `"100"` back with
9 decimals goes through `toFixed(6)` and returns `"0"`, not `"0.0000001"`. -/
theorem formatTokenAmount_roundtrip_fails_seven_digits :
    formatTokenAmount (toRawTokenAmount "0.0000001" 9) 9 = "0"
    ∧ ("0" : String) ≠ "0.0000001" := by
  refine ⟨?_, by decide⟩
  have hraw : toRawTokenAmount "0.0000001" 9 = "100" := by
    simp only [toRawTokenAmount, parseFloatQ_p0000001]
    rw [show ⌊(1 : ℚ) / 10000000 * 10 ^ 9⌋ = 100 from by norm_num]
    exact intRepr_100
  rw [hraw]
  have hfix : toFixedQ ((100 : ℚ) / 10 ^ 9) 6 = "0.000000" := by
    rw [toFixedQ]
    rw [show |(100 : ℚ) / 10 ^ 9| = (100 : ℚ) / 10 ^ 9 from abs_of_nonneg (by norm_num)]
    rw [show ⌊(100 : ℚ) / 10 ^ 9 * 10 ^ 6 + 1 / 2⌋ = 0 from by norm_num]
    rw [if_neg (by norm_num : ¬((100 : ℚ) / 10 ^ 9 < 0))]
    show "" ++ decStr (Int.toNat 0) 6 = "0.000000"
    rw [String.empty_append]
    rw [show Int.toNat 0 = 0 from rfl, decStr]
    simp [natRepr, natReprL, natDigitsLE, padFrac]
  simp only [formatTokenAmount, parseFloatQ_100, hfix, parseFloatQ_zeros6]
  exact jsNumToString_zero

/-- C5 (amended): the round trip is the identity exactly on canonical decimal
strings with at most `min n 6` fraction digits: for `d = decStr a f` (the
canonical decimal string of `a / 10 ^ f`, in lowest fraction form) with
`f ≤ 6` and `f ≤ n`, `formatTokenAmount (toRawTokenAmount d n) n = d`; the
seventh and later fraction digits are destroyed by the display conversion's
rounding to six places before it strips trailing zeros. -/
theorem formatTokenAmount_roundtrip_six_digits (a f n : Nat) (h6 : f ≤ 6) (hn : f ≤ n)
    (hc : f = 0 ∨ ¬(10 ∣ a)) :
    formatTokenAmount (toRawTokenAmount (decStr a f) n) n = decStr a f :=
  formatTokenAmount_toRaw a f n h6 hn hc

/-- Witness for the amended C5: the round trip preserves `"0.5"`. -/
theorem formatTokenAmount_roundtrip_six_digits_witness :
    formatTokenAmount (toRawTokenAmount "0.5" 9) 9 = "0.5" := by
  have h := formatTokenAmount_roundtrip_six_digits 5 1 9 (by norm_num) (by norm_num)
    (Or.inr (by norm_num))
  have e : decStr 5 1 = "0.5" := by
    rw [decStr]
    simp [natRepr, natReprL, natDigitsLE, padFrac, digitChar]
  rw [e] at h
  exact h

theorem parseFloatQ_p001 : parseFloatQ "0.01" = some ((1 : ℚ) / 100) := by
  show parseFloatL "0.01".data = _
  rw [show "0.01".data = ['0'] ++ '.' :: ['0', '1'] from rfl,
    parseFloatL_digits_point _ _ (by decide) (by decide) (by decide)]
  rw [show digitsVal ['0'] = 0 from by decide, show digitsVal ['0', '1'] = 1 from by decide]
  norm_num

theorem toRaw001 : toRawTokenAmount "0.01" 9 = "10000000" := by
  simp only [toRawTokenAmount, parseFloatQ_p001]
  rw [show ⌊(1 : ℚ) / 100 * 10 ^ 9⌋ = 10000000 from by norm_num]
  rw [intRepr, if_neg (by norm_num)]
  show natRepr (10000000 : Nat) = "10000000"
  simp [natRepr, natReprL, natDigitsLE, digitChar]

theorem parseFloatQ_negHalfBillionth :
    parseFloatQ "-0.0000000005" = some (-((1 : ℚ) / 2000000000)) := by
  show parseFloatL "-0.0000000005".data = _
  rw [show "-0.0000000005".data
      = '-' :: (['0'] ++ '.' :: ['0', '0', '0', '0', '0', '0', '0', '0', '0', '5']) from rfl,
    parseFloatL_neg_digits_point _ _ (by decide) (by decide) (by decide)]
  rw [show digitsVal ['0'] = 0 from by decide,
    show digitsVal ['0', '0', '0', '0', '0', '0', '0', '0', '0', '5'] = 5 from by decide]
  norm_num

/-- C6 counterexample: on the negative input `-0.0000000005` with 9 decimals,
the code's `Math.floor` rounds toward negative infinity and returns `"-1"`,
while the claimed truncation toward zero of the same product `-1/2` is `0`
(rendered `"0"`) — so the result is not the truncation toward zero. -/
theorem toRawTokenAmount_floor_not_trunc :
    parseFloatQ "-0.0000000005" = some (-((1 : ℚ) / 2000000000))
    ∧ toRawTokenAmount "-0.0000000005" 9 = "-1"
    ∧ intRepr (specTruncTowardZero (-((1 : ℚ) / 2000000000) * 10 ^ 9)) = "0"
    ∧ ("-1" : String) ≠ "0" := by
  refine ⟨parseFloatQ_negHalfBillionth, ?_, ?_, by decide⟩
  · simp only [toRawTokenAmount, parseFloatQ_negHalfBillionth]
    rw [show ⌊-((1 : ℚ) / 2000000000) * 10 ^ 9⌋ = -1 from by norm_num]
    rw [intRepr, if_pos (by norm_num)]
    show "-" ++ natRepr (1 : Nat) = "-1"
    rw [show natRepr (1 : Nat) = "1" from by simp [natRepr, natReprL, natDigitsLE, digitChar]]
    rfl
  · rw [show -((1 : ℚ) / 2000000000) * 10 ^ 9 = -(1 / 2) from by norm_num]
    rw [specTruncTowardZero, if_neg (by norm_num)]
    rw [show ⌊-(-((1 : ℚ) / 2))⌋ = 0 from by norm_num]
    rw [show (-(0 : Int)) = 0 from by norm_num]
    rw [intRepr, if_neg (by norm_num)]
    show natRepr (0 : Nat) = "0"
    simp [natRepr, natReprL]

/-- C6 (amended): `toRawTokenAmount` returns `"0"` on parse failure rather
than failing; on a parsed value `v` it returns the decimal string of
`Math.floor (v * 10 ^ n)` — the floor toward negative infinity, which never
rounds up (and which truncates toward zero only for non-negative values);
in particular `toRawTokenAmount "0.01" 9 = "10000000"` and
`toRawTokenAmount "abc" 9 = "0"`. -/
theorem toRawTokenAmount_spec (s : String) (n : Nat) :
    (parseFloatQ s = none → toRawTokenAmount s n = "0")
    ∧ (∀ v : ℚ, parseFloatQ s = some v →
        toRawTokenAmount s n = intRepr ⌊v * 10 ^ n⌋
          ∧ ((⌊v * 10 ^ n⌋ : ℚ) ≤ v * 10 ^ n))
    ∧ toRawTokenAmount "0.01" 9 = "10000000"
    ∧ toRawTokenAmount "abc" 9 = "0" := by
  refine ⟨?_, ?_, toRaw001, by decide⟩
  · intro h
    simp only [toRawTokenAmount, h]
  · intro v h
    exact ⟨by simp only [toRawTokenAmount, h], Int.floor_le _⟩

/-- Witness for the amended C6 at `"1.5"` with 0 decimals: the parsed 1.5
floors to 1. -/
theorem toRawTokenAmount_spec_witness :
    parseFloatQ "1.5" = some ((3 : ℚ) / 2) ∧ toRawTokenAmount "1.5" 0 = "1" := by
  have hp : parseFloatQ "1.5" = some ((3 : ℚ) / 2) := by
    show parseFloatL "1.5".data = _
    rw [show "1.5".data = ['1'] ++ '.' :: ['5'] from rfl,
      parseFloatL_digits_point _ _ (by decide) (by decide) (by decide)]
    rw [show digitsVal ['1'] = 1 from by decide, show digitsVal ['5'] = 5 from by decide]
    norm_num
  refine ⟨hp, ?_⟩
  have h := ((toRawTokenAmount_spec "1.5" 0).2.1 ((3 : ℚ) / 2) hp).1
  rw [h, show ⌊(3 : ℚ) / 2 * 10 ^ 0⌋ = 1 from by norm_num]
  rw [intRepr, if_neg (by norm_num)]
  show natRepr (1 : Nat) = "1"
  simp [natRepr, natReprL, natDigitsLE, digitChar]
